import Mathlib

/-
Verification development for the mdbasequery core: shallow embedding of the
expression tokenizer/parser (src/core/expression/parser.ts), the dynamic-value
evaluator (the expression evaluator module), and the query compiler/executor
(src/core/query-engine.ts, the current version of the file), together with
theorems settling the frozen specification claims.

Modelling conventions:
- JavaScript numbers are modelled as exact integer fractions.  All claim-relevant
  arithmetic is exact integer/rational arithmetic, so no floating-point
  behaviour (NaN, Infinity, rounding) is observable in any verified statement.
  Division by zero yields 0 in the model (JS: Infinity); the numeric token
  shapes JS would map to NaN (such as "1.2.3") are mapped to 0; both cases are
  unreachable from every verified claim.
- JavaScript Date values are modelled as integer milliseconds since the Unix
  epoch, interpreted in UTC (the code uses local-time accessors; the claims are
  timezone-independent calendar facts).
- `String.prototype.localeCompare` is modelled as case-insensitive-first
  lexicographic ASCII comparison with lowercase ordered before uppercase on
  ties; every verified claim only compares all-lowercase ASCII strings, where
  this coincides with the locale order.
-/

namespace MdBase

/-! ### JS-adjacent primitives -/

/-- Whitespace characters recognised by the tokenizer and by string trimming
(the ASCII subset of the JS `\s` class; no claim input contains non-ASCII). -/
def jsIsWhitespace (c : Char) : Bool :=
  c = ' ' || c = '\t' || c = '\n' || c = '\r' || c = Char.ofNat 11 || c = Char.ofNat 12

def isDigitChar (c : Char) : Bool :=
  '0' ≤ c && c ≤ '9'

def isAsciiLower (c : Char) : Bool :=
  'a' ≤ c && c ≤ 'z'

def isAsciiUpper (c : Char) : Bool :=
  'A' ≤ c && c ≤ 'Z'

def isAsciiLetter (c : Char) : Bool :=
  isAsciiLower c || isAsciiUpper c

/-- Character class of `/[A-Za-z0-9_]/` (the JS word class used by `\b`). -/
def isWordChar (c : Char) : Bool :=
  isAsciiLetter c || isDigitChar c || c = '_'

def charToLower (c : Char) : Char :=
  if isAsciiUpper c then Char.ofNat (c.toNat + 32) else c

def strToLower (s : String) : String :=
  String.mk (s.toList.map charToLower)

def strToUpper (s : String) : String :=
  String.mk (s.toList.map (fun c => if isAsciiLower c then Char.ofNat (c.toNat - 32) else c))

def trimLeftChars : List Char → List Char
  | [] => []
  | c :: cs => if jsIsWhitespace c then trimLeftChars cs else c :: cs

/-- JS `String.prototype.trim` (ASCII whitespace). -/
def jsTrim (s : String) : String :=
  String.mk ((trimLeftChars ((trimLeftChars s.toList.reverse)).reverse))

def listLexLt : List Char → List Char → Bool
  | [], [] => false
  | [], _ :: _ => true
  | _ :: _, [] => false
  | a :: as, b :: bs =>
    if a.toNat < b.toNat then true
    else if b.toNat < a.toNat then false
    else listLexLt as bs

/-- Code-unit lexicographic comparison (JS `<`, `>` on strings). -/
def strLt (a b : String) : Bool :=
  listLexLt a.toList b.toList

def listIsPrefixOf : List Char → List Char → Bool
  | [], _ => true
  | _ :: _, [] => false
  | a :: as, b :: bs => a = b && listIsPrefixOf as bs

def strStartsWith (s p : String) : Bool :=
  listIsPrefixOf p.toList s.toList

def strEndsWith (s p : String) : Bool :=
  listIsPrefixOf p.toList.reverse s.toList.reverse

/-- Approximation of `localeCompare` on chars: case-insensitive primary
weight, lowercase-before-uppercase secondary weight. -/
def localeCharCmp (a b : Char) : Ordering :=
  if a = b then Ordering.eq
  else
    let la := charToLower a
    let lb := charToLower b
    if la = lb then (if isAsciiLower a then Ordering.lt else Ordering.gt)
    else compare la.toNat lb.toNat

def localeCmpList : List Char → List Char → Ordering
  | [], [] => Ordering.eq
  | [], _ :: _ => Ordering.lt
  | _ :: _, [] => Ordering.gt
  | a :: as, b :: bs =>
    match localeCharCmp a b with
    | Ordering.eq => localeCmpList as bs
    | o => o

/-- Model of `a.localeCompare(b)` (only the sign is ever used). -/
def localeCompare (a b : String) : Int :=
  match localeCmpList a.toList b.toList with
  | Ordering.lt => -1
  | Ordering.eq => 0
  | Ordering.gt => 1

/-! ### JS numbers

JS numbers are modelled as unnormalized integer fractions with positive
denominator (`Mathlib`'s `Rat` is kernel-irreducible, so a bespoke type keeps
every verified statement computable by `rfl`/`decide`).  All claim-relevant
numbers are exact small integers, where this model and IEEE doubles agree. -/

structure JNum where
  num : Int
  den : Int
deriving DecidableEq, Repr

/-- Embeds an integer as a JS number. -/
def jint (i : Int) : JNum := ⟨i, 1⟩

def jnumAdd (a b : JNum) : JNum := ⟨a.num * b.den + b.num * a.den, a.den * b.den⟩

def jnumSub (a b : JNum) : JNum := ⟨a.num * b.den - b.num * a.den, a.den * b.den⟩

def jnumMul (a b : JNum) : JNum := ⟨a.num * b.num, a.den * b.den⟩

def jnumNeg (a : JNum) : JNum := ⟨-a.num, a.den⟩

/-- Division; a zero divisor (JS: ±Infinity or NaN) is modelled as 0 and is
unreachable from every verified claim. -/
def jnumDiv (a b : JNum) : JNum :=
  if b.num = 0 then ⟨0, 1⟩
  else
    let n := a.num * b.den
    let d := a.den * b.num
    if d < 0 then ⟨-n, -d⟩ else ⟨n, d⟩

/-- Value equality of JS numbers (representation-independent). -/
def jnumEq (a b : JNum) : Bool := a.num * b.den = b.num * a.den

def jnumLt (a b : JNum) : Bool := a.num * b.den < b.num * a.den

def jnumLe (a b : JNum) : Bool := a.num * b.den ≤ b.num * a.den

def jnumIsZero (a : JNum) : Bool := a.num = 0

/-- Truncation toward zero (JS `Math.trunc`, and the integral clipping a JS
Date applies to its time value).  `Int.div` is T-division and the denominator
is positive. -/
def jnumTrunc (a : JNum) : Int := Int.tdiv a.num a.den

def jnumFloor (a : JNum) : Int := Int.fdiv a.num a.den

def jnumCeil (a : JNum) : Int := -(Int.fdiv (-a.num) a.den)

/-- Sign as a JS comparator result. -/
def jnumSign (a : JNum) : Int :=
  if a.num < 0 then -1 else if a.num = 0 then 0 else 1

/-- JS `%` (remainder with the dividend's sign). -/
def jnumMod (a b : JNum) : JNum :=
  if b.num = 0 then ⟨0, 1⟩
  else jnumSub a (jnumMul b (jint (jnumTrunc (jnumDiv a b))))

def natOfDigits (l : List Char) : Nat :=
  l.foldl (fun acc c => acc * 10 + (c.toNat - '0'.toNat)) 0

/-- Decimal rendering of an integer (JS `String(n)` for integral numbers). -/
def intToDecimal (i : Int) : String :=
  if i < 0 then "-" ++ toString i.natAbs else toString i.natAbs

/-- JS number-to-string: integral values render as decimal integers; other
values render as `num/den` (JS would render a decimal expansion; no verified
claim stringifies a non-integral number). -/
def jsNumToString (q : JNum) : String :=
  if Int.emod q.num q.den = 0 then intToDecimal (Int.tdiv q.num q.den)
  else intToDecimal q.num ++ "/" ++ intToDecimal q.den

/-- Parses an unsigned decimal with a single optional fraction part, the shape
every numeric inhabitant of this development has.  Returns `none` where JS
`Number(...)` would produce NaN. -/
def parseDecimalCore (l : List Char) : Option JNum :=
  let intPart := l.takeWhile isDigitChar
  let rest := l.drop intPart.length
  match rest with
  | [] =>
    if intPart.isEmpty then none else some (jint (natOfDigits intPart))
  | '.' :: fracRest =>
    let fracPart := fracRest.takeWhile isDigitChar
    if fracRest.drop fracPart.length ≠ [] then none
    else
      some (jnumAdd (jint (natOfDigits intPart))
        ⟨natOfDigits fracPart, ((10 : Int) ^ fracPart.length)⟩)
  | _ => none

/-- JS `ToNumber` on strings (`Number(s)`): trimmed; empty string is 0; an
optionally signed decimal parses; anything else is NaN (`none`). -/
def jsStringToNumber (s : String) : Option JNum :=
  let t := (jsTrim s).toList
  match t with
  | [] => some (jint 0)
  | '+' :: rest => parseDecimalCore rest
  | '-' :: rest => (parseDecimalCore rest).map jnumNeg
  | _ => parseDecimalCore t

/-! ### Civil calendar arithmetic

JS Dates normalise out-of-range calendar fields (`MakeDay`) by linear day
arithmetic; the standard civil-calendar conversion functions below reproduce
that, including day-of-month overflow (`daysFromCivil y 2 31` is the day
number of the date 31 days after the first of February minus one). -/

def daysFromCivil (y m d : Int) : Int :=
  let y' := if m ≤ 2 then y - 1 else y
  let era := Int.ediv y' 400
  let yoe := y' - era * 400
  let mp := Int.emod (m + 9) 12
  let doy := Int.ediv (153 * mp + 2) 5 + d - 1
  let doe := yoe * 365 + Int.ediv yoe 4 - Int.ediv yoe 100 + doy
  era * 146097 + doe - 719468

def civilFromDays (z : Int) : Int × Int × Int :=
  let z' := z + 719468
  let era := Int.ediv z' 146097
  let doe := z' - era * 146097
  let yoe := Int.ediv (doe - Int.ediv doe 1460 + Int.ediv doe 36524 - Int.ediv doe 146096) 365
  let y := yoe + era * 400
  let doy := doe - (365 * yoe + Int.ediv yoe 4 - Int.ediv yoe 100)
  let mp := Int.ediv (5 * doy + 2) 153
  let d := doy - Int.ediv (153 * mp + 2) 5 + 1
  let m := mp + (if mp < 10 then 3 else -9)
  (if m ≤ 2 then y + 1 else y, m, d)

def msPerDay : Int := 86400000

/-- Milliseconds at UTC midnight of a civil date plus a millisecond offset. -/
def utcMs (y m d : Int) (ms : Int) : Int :=
  daysFromCivil y m d * msPerDay + ms

def dateDays (t : Int) : Int := Int.ediv t msPerDay

def dateTod (t : Int) : Int := Int.emod t msPerDay

def dateYear (t : Int) : Int := (civilFromDays (dateDays t)).1

/-- 1-based month of a date value. -/
def dateMonth (t : Int) : Int := (civilFromDays (dateDays t)).2.1

def dateDayOfMonth (t : Int) : Int := (civilFromDays (dateDays t)).2.2

/-- `setFullYear(y)` keeping month, day-of-month and time of day; day overflow
normalises as in JS `MakeDay`. -/
def dateSetFullYear (t : Int) (y : Int) : Int :=
  let c := civilFromDays (dateDays t)
  daysFromCivil y c.2.1 c.2.2 * msPerDay + dateTod t

/-- `setMonth(m0)` with a 0-based (possibly out-of-range) month, keeping
day-of-month and time of day, normalising as in JS `MakeDay`. -/
def dateSetMonth0 (t : Int) (m0 : Int) : Int :=
  let c := civilFromDays (dateDays t)
  daysFromCivil (c.1 + Int.ediv m0 12) (Int.emod m0 12 + 1) c.2.2 * msPerDay + dateTod t

example : civilFromDays (daysFromCivil 2024 1 31) = (2024, 1, 31) := by decide
example : daysFromCivil 2024 2 31 = daysFromCivil 2024 3 2 := by decide
example : dateSetMonth0 (utcMs 2024 1 31 0) 1 = utcMs 2024 3 2 0 := by decide

/-! ### Dynamic values

The evaluator's dynamic value universe (a tagged union in the source: plain JS
values plus `__kind`-tagged records for duration/link/html/image/icon).  A JS
`undefined` and `null` are distinct values and both are modelled.  File
records are plain records satisfying `isFileLike` (string `path`, `name`,
`ext` fields), exactly as in the source. -/

inductive DUnit where
  | year | month | week | day | hour | minute | second | millisecond
deriving DecidableEq, Repr

def dUnitName : DUnit → String
  | .year => "year"
  | .month => "month"
  | .week => "week"
  | .day => "day"
  | .hour => "hour"
  | .minute => "minute"
  | .second => "second"
  | .millisecond => "millisecond"

/-- Milliseconds per duration unit (the `unitMs` table in
`durationToMilliseconds`). -/
def dUnitMs : DUnit → Int
  | .year => 365 * 24 * 60 * 60 * 1000
  | .month => 30 * 24 * 60 * 60 * 1000
  | .week => 7 * 24 * 60 * 60 * 1000
  | .day => 24 * 60 * 60 * 1000
  | .hour => 60 * 60 * 1000
  | .minute => 60 * 1000
  | .second => 1000
  | .millisecond => 1

inductive Value where
  | vNull
  | vUndef
  | vBool (b : Bool)
  | vNum (q : JNum)
  | vStr (s : String)
  | vDate (ms : Int)
  | vDur (parts : List (DUnit × JNum))
  | vLink (path : String) (display : Option Value)
  | vList (elems : List Value)
  | vObj (fields : List (String × Value))
  | vHtml (payload : String)
  | vImage (payload : String)
  | vIcon (payload : String)
  | vRegex (body : String) (flags : String)

open Value

/-- First-match lookup in an insertion-ordered JS object. -/
def objGet (fields : List (String × Value)) (key : String) : Option Value :=
  (fields.find? (fun f => f.1 = key)).map (fun f => f.2)

/-- `Object.prototype.hasOwnProperty`. -/
def objHasOwn (fields : List (String × Value)) (key : String) : Bool :=
  (fields.find? (fun f => f.1 = key)).isSome

/-- JS object key assignment: replaces an existing key in place, otherwise
appends (preserving `Object.keys` insertion order). -/
def objSet (fields : List (String × Value)) (key : String) (v : Value) :
    List (String × Value) :=
  if objHasOwn fields key then
    fields.map (fun f => if f.1 = key then (key, v) else f)
  else fields ++ [(key, v)]

def isNullish : Value → Bool
  | vNull => true
  | vUndef => true
  | _ => false

/-- JS `typeof value === "object" && value !== null` (`isRecord`): every
modelled value whose JS runtime type is object. -/
def jsIsRecord : Value → Bool
  | vNull | vUndef | vBool _ | vNum _ | vStr _ => false
  | _ => true

def isDurationValue : Value → Bool
  | vDur _ => true
  | _ => false

def isLinkValue : Value → Bool
  | vLink _ _ => true
  | _ => false

/-- `isFileLike`: a record with string `path`, `name` and `ext` fields. -/
def isFileLike : Value → Bool
  | vObj fields =>
    (match objGet fields "path" with | some (vStr _) => true | _ => false) &&
    (match objGet fields "name" with | some (vStr _) => true | _ => false) &&
    (match objGet fields "ext" with | some (vStr _) => true | _ => false)
  | _ => false

/-- JS truthiness (`Boolean(value)`). -/
def toBoolean : Value → Bool
  | vNull => false
  | vUndef => false
  | vBool b => b
  | vNum q => !jnumIsZero q
  | vStr s => s ≠ ""
  | _ => true

def durationToMilliseconds (parts : List (DUnit × JNum)) : JNum :=
  parts.foldl (fun total p => jnumAdd total (jnumMul (jint (dUnitMs p.1)) p.2)) (jint 0)

/-! ### Path helpers -/

def normalizePath (p : String) : String :=
  let slashes := String.mk (p.toList.map (fun c => if c = '\\' then '/' else c))
  let stripped := if strStartsWith slashes "./" then slashes.drop 2 else slashes
  jsTrim stripped

def basenameOfNormalized (s : String) : String :=
  String.mk ((s.toList.reverse.takeWhile (fun c => c ≠ '/')).reverse)

def basename (p : String) : String :=
  basenameOfNormalized (normalizePath p)

def basenameWithoutExt (p : String) : String :=
  let name := basename p
  let rev := name.toList.reverse
  if rev.any (fun c => c = '.') then
    String.mk ((rev.dropWhile (fun c => c ≠ '.')).drop 1 |>.reverse)
  else name

/-- Removal of a trailing `.md` (case-insensitive match of the suffix, as the
`/\.md$/i` pattern in `resolveComparablePath`). -/
def stripMdSuffix (s : String) : String :=
  if strEndsWith (strToLower s) ".md" then s.dropRight 3 else s

/-! ### Value rendering -/

def pad2 (n : Int) : String :=
  let t := toString n.natAbs
  if t.length < 2 then String.mk (List.replicate (2 - t.length) '0') ++ t else t

def pad3 (n : Int) : String :=
  let t := toString n.natAbs
  if t.length < 3 then String.mk (List.replicate (3 - t.length) '0') ++ t else t

def pad4 (n : Int) : String :=
  let t := toString n.natAbs
  if t.length < 4 then String.mk (List.replicate (4 - t.length) '0') ++ t else t

def dateHours (t : Int) : Int := Int.ediv (dateTod t) 3600000

def dateMinutes (t : Int) : Int := Int.emod (Int.ediv (dateTod t) 60000) 60

def dateSeconds (t : Int) : Int := Int.emod (Int.ediv (dateTod t) 1000) 60

def dateMillis (t : Int) : Int := Int.emod (dateTod t) 1000

/-- `Date.prototype.toISOString` (UTC). -/
def dateToIso (t : Int) : String :=
  pad4 (dateYear t) ++ "-" ++ pad2 (dateMonth t) ++ "-" ++ pad2 (dateDayOfMonth t) ++
    "T" ++ pad2 (dateHours t) ++ ":" ++ pad2 (dateMinutes t) ++ ":" ++ pad2 (dateSeconds t) ++
    "." ++ pad3 (dateMillis t) ++ "Z"

def joinParts : List String → String → String
  | [], _ => ""
  | [x], _ => x
  | x :: y :: rest, sep => x ++ sep ++ joinParts (y :: rest) sep

/-- Minimal JSON string quoting (claim-relevant strings contain no escapes). -/
def jsonQuote (s : String) : String :=
  "\"" ++ String.mk (s.toList.flatMap (fun c =>
    if c = '"' || c = '\\' then ['\\', c] else [c])) ++ "\""

/-- Pure insertion sort with a JS-style three-way comparator; stable, so it
models the (stability-guaranteed) `Array.prototype.sort`. -/
def insertByCmp (cmp : α → α → Int) (x : α) : List α → List α
  | [] => [x]
  | y :: ys => if cmp x y ≤ 0 then x :: y :: ys else y :: insertByCmp cmp x ys

def sortByCmp (cmp : α → α → Int) : List α → List α
  | [] => []
  | x :: xs => insertByCmp cmp x (sortByCmp cmp xs)

mutual

/-- JS `String(value)` coercion.  A Date renders here as its ISO string (JS
uses a locale phrase; no verified claim coerces a Date to a string). -/
def jsStringCoerce : Value → String
  | vNull => "null"
  | vUndef => "undefined"
  | vBool b => if b then "true" else "false"
  | vNum q => jsNumToString q
  | vStr s => s
  | vDate t => dateToIso t
  | vList xs => jsArrayJoin xs
  | vRegex body flags => "/" ++ body ++ "/" ++ flags
  | _ => "[object Object]"

/-- `Array.prototype.toString`: elements joined with commas, nullish elements
rendered as the empty string. -/
def jsArrayJoin : List Value → String
  | [] => ""
  | [x] => if isNullish x then "" else jsStringCoerce x
  | x :: y :: rest =>
    (if isNullish x then "" else jsStringCoerce x) ++ "," ++ jsArrayJoin (y :: rest)

end

def jsonDurPart (p : DUnit × JNum) : String :=
  "\x7b" ++ jsonQuote "unit" ++ ":" ++ jsonQuote (dUnitName p.1) ++ "," ++
    jsonQuote "value" ++ ":" ++ jsNumToString p.2 ++ "\x7d"

mutual

/-- `JSON.stringify` for a single value: undefined inside an array renders as
null, an undefined-valued record key is dropped, a Date renders as its quoted
ISO string, the `__kind`-tagged records serialize as the plain records they
are, and a RegExp serializes to an empty object. -/
def jsonValue : Value → String
  | vNull => "null"
  | vUndef => "null"
  | vBool b => if b then "true" else "false"
  | vNum q => jsNumToString q
  | vStr s => jsonQuote s
  | vDate t => jsonQuote (dateToIso t)
  | vList xs => "[" ++ joinParts (jsonListPieces xs) "," ++ "]"
  | vObj fields => "\x7b" ++ joinParts (jsonFieldPieces fields) "," ++ "\x7d"
  | vDur parts =>
    "\x7b" ++ jsonQuote "__kind" ++ ":" ++ jsonQuote "duration" ++ "," ++ jsonQuote "parts" ++
      ":[" ++ joinParts (parts.map jsonDurPart) "," ++ "]\x7d"
  | vLink p display =>
    "\x7b" ++ jsonQuote "__kind" ++ ":" ++ jsonQuote "link" ++ "," ++ jsonQuote "path" ++ ":" ++
      jsonQuote p ++
      (match display with
       | none => ""
       | some vUndef => ""
       | some d => "," ++ jsonQuote "display" ++ ":" ++ jsonValue d) ++ "\x7d"
  | vHtml s => "\x7b" ++ jsonQuote "__kind" ++ ":" ++ jsonQuote "html" ++ "," ++ jsonQuote "html" ++ ":" ++ jsonQuote s ++ "\x7d"
  | vImage s => "\x7b" ++ jsonQuote "__kind" ++ ":" ++ jsonQuote "image" ++ "," ++ jsonQuote "source" ++ ":" ++ jsonQuote s ++ "\x7d"
  | vIcon s => "\x7b" ++ jsonQuote "__kind" ++ ":" ++ jsonQuote "icon" ++ "," ++ jsonQuote "name" ++ ":" ++ jsonQuote s ++ "\x7d"
  | vRegex _ _ => "\x7b\x7d"

def jsonListPieces : List Value → List String
  | [] => []
  | x :: rest => jsonValue x :: jsonListPieces rest

def jsonFieldPieces : List (String × Value) → List String
  | [] => []
  | (k, v) :: rest =>
    match v with
    | vUndef => jsonFieldPieces rest
    | _ => (jsonQuote k ++ ":" ++ jsonValue v) :: jsonFieldPieces rest

end

mutual

/-- `stableStringify` from the evaluator: the canonical order-independent
serialization used for record equality and structural dedup. -/
def stableStringify : Value → String
  | vNull => "null"
  | vUndef => "null"
  | vDate t => "date:" ++ intToDecimal t
  | vDur parts =>
    "duration:" ++ joinParts (parts.map (fun p => jsNumToString p.2 ++ dUnitName p.1)) "|"
  | vLink p _ => "link:" ++ normalizePath p
  | vObj fields =>
    if isFileLike (vObj fields) then
      "file:" ++ normalizePath (match objGet fields "path" with
        | some (vStr s) => s
        | _ => "")
    else
      "\x7b" ++ joinParts ((sortByCmp (fun (a b : String × String) => localeCompare a.1 b.1)
        (ssFields fields)).map (fun p => p.1 ++ ":" ++ p.2)) "," ++ "\x7d"
  | vList xs => "[" ++ joinParts (ssListPieces xs) "," ++ "]"
  | vBool b => "boolean:" ++ (if b then "true" else "false")
  | vNum q => "number:" ++ jsNumToString q
  | vStr s => "string:" ++ s
  | vHtml s => "\x7b" ++ "__kind:string:html,html:string:" ++ s ++ "\x7d"
  | vImage s => "\x7b" ++ "__kind:string:image,source:string:" ++ s ++ "\x7d"
  | vIcon s => "\x7b" ++ "__kind:string:icon,name:string:" ++ s ++ "\x7d"
  | vRegex _ _ => "\x7b\x7d"

def ssListPieces : List Value → List String
  | [] => []
  | x :: rest => stableStringify x :: ssListPieces rest

def ssFields : List (String × Value) → List (String × String)
  | [] => []
  | (k, v) :: rest => (k, stableStringify v) :: ssFields rest

end

/-- `stringifyValue`: the evaluator's display form. -/
def stringifyValue : Value → String
  | vNull => ""
  | vUndef => ""
  | vStr s => s
  | vNum q => jsNumToString q
  | vBool b => if b then "true" else "false"
  | vDate t => dateToIso t
  | vDur parts => joinParts (parts.map (fun p => jsNumToString p.2 ++ dUnitName p.1)) " "
  | vLink p display =>
    match display with
    | none => p
    | some vUndef => p
    | some d => jsStringCoerce d
  | vObj fields =>
    if isFileLike (vObj fields) then
      match objGet fields "path" with
      | some (vStr s) => s
      | _ => ""
    else jsonValue (vObj fields)
  | vIcon s => s
  | vImage s => s
  | vHtml s => s
  | vList xs => jsonValue (vList xs)
  | vRegex b fl => jsonValue (vRegex b fl)

/-! ### Numeric coercion and duration parsing -/

/-- The evaluator's `toNumber`: number, boolean, Date instant, duration
millisecond total, nullish → 0; everything else through JS `Number(...)`,
with a strict-mode error where JS would produce a non-finite result. -/
def toNumber (strict : Bool) : Value → Except String JNum
  | vNum q => .ok q
  | vBool b => .ok (jint (if b then 1 else 0))
  | vDate t => .ok (jint t)
  | vDur parts => .ok (durationToMilliseconds parts)
  | vNull => .ok (jint 0)
  | vUndef => .ok (jint 0)
  | v =>
    match jsStringToNumber (jsStringCoerce v) with
    | some q => .ok q
    | none =>
      if strict then .error ("cannot convert value to number: " ++ jsStringCoerce v)
      else .ok (jint 0)

def mapDurationUnit (unit : String) : Option DUnit :=
  match jsTrim unit with
  | "y" | "year" | "years" => some .year
  | "M" | "month" | "months" => some .month
  | "w" | "week" | "weeks" => some .week
  | "d" | "day" | "days" => some .day
  | "h" | "hour" | "hours" => some .hour
  | "m" | "minute" | "minutes" => some .minute
  | "s" | "second" | "seconds" => some .second
  | "ms" | "millisecond" | "milliseconds" => some .millisecond
  | _ => none

/-- The duration-pattern unit alternatives in regex order, with each greedy
`s?` expanded longest-first (the order decides which alternative matches, in
particular `M` before the lowercase `m`). -/
def durUnitAlternatives : List String :=
  ["ms", "milliseconds", "millisecond", "M", "months", "month", "m",
   "minutes", "minute", "y", "years", "year", "w", "weeks", "week", "d",
   "days", "day", "h", "hours", "hour", "s", "seconds", "second"]

def dropLiteral : List Char → List Char → Option (List Char)
  | [], s => some s
  | _ :: _, [] => none
  | l :: ls, c :: cs => if l = c then dropLiteral ls cs else none

def findUnitAlt (s : List Char) : Option (String × List Char) :=
  (durUnitAlternatives.filterMap (fun alt =>
    (dropLiteral alt.toList s).map (fun rest => (alt, rest)))).head?

/-- One attempt of the duration token pattern
`([+-]?\d+(?:\.\d+)?)\s*(unit-alternation)` at the current position; on
success returns the matched (unit, amount) and the rest of the input. -/
def matchDurToken (s : List Char) : Option ((DUnit × JNum) × List Char) :=
  let (isNeg, s1) : Bool × List Char :=
    match s with
    | '+' :: rest => (false, rest)
    | '-' :: rest => (true, rest)
    | _ => (false, s)
  let digits := s1.takeWhile isDigitChar
  if digits.isEmpty then none
  else
    let s2 := s1.drop digits.length
    let (frac, s3) : List Char × List Char :=
      match s2 with
      | '.' :: rest =>
        let fd := rest.takeWhile isDigitChar
        if fd.isEmpty then ([], s2) else (fd, rest.drop fd.length)
      | _ => ([], s2)
    let s4 := s3.dropWhile jsIsWhitespace
    match findUnitAlt s4 with
    | none => none
    | some (unitText, rest) =>
      match mapDurationUnit unitText with
      | none => none
      | some u =>
        let base := jnumAdd (jint (natOfDigits digits))
          ⟨natOfDigits frac, ((10 : Int) ^ frac.length)⟩
        some ((u, if isNeg then jnumNeg base else base), rest)

/-- Global scan of the duration pattern (`matchAll`): non-overlapping matches
left to right, advancing one character after a failed attempt. -/
def scanDuration (fuel : Nat) (s : List Char) (acc : List (DUnit × JNum)) :
    List (DUnit × JNum) :=
  match fuel with
  | 0 => acc
  | fuel + 1 =>
    match s with
    | [] => acc
    | _ :: tail =>
      match matchDurToken s with
      | some (part, rest) => scanDuration fuel rest (acc ++ [part])
      | none => scanDuration fuel tail acc

/-- `parseDuration`: scans the trimmed input for duration parts; no part at
all is an error. -/
def parseDuration (s : String) : Except String (List (DUnit × JNum)) :=
  let input := (jsTrim s).toList
  let parts := scanDuration (input.length + 1) input []
  if parts.isEmpty then .error ("invalid duration: " ++ s)
  else .ok parts

def tryParseDuration : Value → Option (List (DUnit × JNum))
  | vDur parts => some parts
  | vStr s => (parseDuration s).toOption
  | _ => none

/-- `applyDurationToDate`: year and month parts mutate the calendar fields
(with JS `MakeDay` overflow normalisation), all smaller units add flat
milliseconds. -/
def applyDurationToDate (t : Int) (parts : List (DUnit × JNum)) (sign : Int) : Int :=
  parts.foldl (fun cur p =>
    let amount := jnumMul p.2 (jint sign)
    match p.1 with
    | .year => dateSetFullYear cur (dateYear cur + jnumTrunc amount)
    | .month => dateSetMonth0 cur ((dateMonth cur - 1) + jnumTrunc amount)
    | u => jnumTrunc (jnumAdd (jint cur) (jnumMul (jint (dUnitMs u)) amount))) t

/-! ### Operator semantics -/

def asDate : Value → Option Int
  | vDate t => some t
  | _ => none

def asNum : Value → Option JNum
  | vNum q => some q
  | _ => none

def isStrV : Value → Bool
  | vStr _ => true
  | _ => false

def isNumV : Value → Bool
  | vNum _ => true
  | _ => false

/-- `addValues`: Date+duration / Date+number shift, duration concatenation,
string concatenation of display forms, else numeric addition. -/
def addValues (strict : Bool) (l r : Value) : Except String Value :=
  let tail : Except String Value :=
    match l, r with
    | vDur ps, vDur qs => .ok (vDur (ps ++ qs))
    | _, _ =>
      if isStrV l || isStrV r then .ok (vStr (stringifyValue l ++ stringifyValue r))
      else do
        let a ← toNumber strict l
        let b ← toNumber strict r
        pure (vNum (jnumAdd a b))
  let step2 : Except String Value :=
    match asDate r, tryParseDuration l with
    | some t, some dur => .ok (vDate (applyDurationToDate t dur 1))
    | _, _ => tail
  match asDate l with
  | some t =>
    (match tryParseDuration r with
     | some dur => .ok (vDate (applyDurationToDate t dur 1))
     | none =>
       match asNum r with
       | some q => .ok (vDate (jnumTrunc (jnumAdd (jint t) q)))
       | none => step2)
  | none => step2

/-- `subtractValues`: Date−Date numeric difference, Date−duration shift,
duration−duration numeric difference, else numeric subtraction. -/
def subtractValues (strict : Bool) (l r : Value) : Except String Value :=
  let tail : Except String Value :=
    match l, r with
    | vDur ps, vDur qs =>
      .ok (vNum (jnumSub (durationToMilliseconds ps) (durationToMilliseconds qs)))
    | _, _ => do
      let a ← toNumber strict l
      let b ← toNumber strict r
      pure (vNum (jnumSub a b))
  match asDate l with
  | some t =>
    (match asDate r with
     | some u => .ok (vNum (jint (t - u)))
     | none =>
       match tryParseDuration r with
       | some dur => .ok (vDate (applyDurationToDate t dur (-1)))
       | none =>
         match asNum r with
         | some q => .ok (vDate (jnumTrunc (jnumSub (jint t) q)))
         | none => tail)
  | none => tail

def multiplyValues (strict : Bool) (l r : Value) : Except String Value :=
  match l, r with
  | vDur ps, vNum q => .ok (vDur (ps.map (fun p => (p.1, jnumMul p.2 q))))
  | vNum q, vDur ps => .ok (vDur (ps.map (fun p => (p.1, jnumMul p.2 q))))
  | _, _ => do
    let a ← toNumber strict l
    let b ← toNumber strict r
    pure (vNum (jnumMul a b))

/-- `divideValues` (division by zero would be a JS Infinity; in this model it
is 0 and is unreachable from every verified claim). -/
def divideValues (strict : Bool) (l r : Value) : Except String Value :=
  match l, r with
  | vDur ps, vNum q => .ok (vDur (ps.map (fun p => (p.1, jnumDiv p.2 q))))
  | _, _ => do
    let a ← toNumber strict l
    let b ← toNumber strict r
    pure (vNum (jnumDiv a b))

/-- `compareValues`: Date by instant, durations via millisecond totals,
string by locale order, boolean as 0/1, number numerically, otherwise the
locale order of the display strings.  Only the sign is ever used. -/
def compareValues (strict : Bool) (l r : Value) : Except String JNum :=
  match l, r with
  | vDate a, vDate b => .ok (jint (a - b))
  | _, _ =>
    if isDurationValue l || isDurationValue r then do
      let a ← toNumber strict l
      let b ← toNumber strict r
      pure (jnumSub a b)
    else
      match l, r with
      | vStr a, vStr b => .ok (jint (localeCompare a b))
      | vBool a, vBool b => .ok (jint ((if a then 1 else 0) - (if b then 1 else 0)))
      | vNum a, vNum b => .ok (jnumSub a b)
      | _, _ => .ok (jint (localeCompare (stringifyValue l) (stringifyValue r)))

/-- `resolveComparablePath`: hyperlink, file record and plain string resolve
to their normalized path with a trailing `.md` removed. -/
def resolveComparablePath : Value → Option String
  | vLink p _ => some (stripMdSuffix (normalizePath p))
  | vObj fields =>
    if isFileLike (vObj fields) then
      some (stripMdSuffix (normalizePath (match objGet fields "path" with
        | some (vStr s) => s
        | _ => "")))
    else none
  | vStr s => some (stripMdSuffix (normalizePath s))
  | _ => none

/-- JS `===` for the value pairs that can reach the final fallback of
`equalsValues` (primitives by value; object references are distinct). -/
def strictEqFallback : Value → Value → Bool
  | vNull, vNull => true
  | vUndef, vUndef => true
  | vBool a, vBool b => a = b
  | vStr a, vStr b => a = b
  | vNum a, vNum b => jnumEq a b
  | _, _ => false

mutual

/-- Fuel-indexed core of `equalsValues`; the fuel only bounds the nesting
depth of list recursion (values nested deeper than the top-level fuel of 1000
would error; no such value is reachable in this development). -/
def equalsValuesGo (strict : Bool) : Nat → Value → Value → Except String Bool
  | 0, _, _ => .error "equality recursion depth exceeded"
  | fuel + 1, l, r =>
    match l, r with
    | vDate a, vDate b => .ok (decide (a = b))
    | _, _ =>
    match resolveComparablePath l, resolveComparablePath r with
    | some lp, some rp => .ok (decide (lp = rp))
    | _, _ =>
      match l, r with
      | vDur ps, vDur qs =>
        .ok (jnumEq (durationToMilliseconds ps) (durationToMilliseconds qs))
      | _, _ =>
        if isNumV l || isNumV r then do
          let a ← toNumber strict l
          let b ← toNumber strict r
          pure (jnumEq a b)
        else
          match l, r with
          | vList xs, vList ys =>
            if xs.length = ys.length then equalsListGo strict fuel xs ys
            else .ok (decide (stableStringify (vList xs) = stableStringify (vList ys)))
          | _, _ =>
            if jsIsRecord l && jsIsRecord r then
              .ok (decide (stableStringify l = stableStringify r))
            else .ok (strictEqFallback l r)
termination_by structural fuel => fuel

def equalsListGo (strict : Bool) : Nat → List Value → List Value → Except String Bool
  | 0, _, _ => .error "equality recursion depth exceeded"
  | _ + 1, [], _ => .ok true
  | _ + 1, _ :: _, [] => .ok false
  | fuel + 1, x :: xs, y :: ys => do
    let h ← equalsValuesGo strict fuel x y
    if h then equalsListGo strict fuel xs ys else pure false
termination_by structural fuel => fuel

end

/-- `equalsValues` (`==`): Dates by instant; any two path-resolvable values
by normalized-path equality; durations by millisecond totals; a numeric
operand forces numeric comparison; equal-length lists element-wise; records
by canonical serialization; else strict equality. -/
def equalsValues (strict : Bool) (l r : Value) : Except String Bool :=
  equalsValuesGo strict 1000 l r

example : equalsValues true (vLink "Notes/Alpha" none) (vStr "Notes/Alpha.md") = .ok true := by
  rfl

example :
    addValues true (vDate (utcMs 2024 1 31 0)) (vStr "1M") =
      .ok (vDate (utcMs 2024 3 2 0)) := by
  rfl

/-! ### Expression AST (ast.ts) -/

inductive Node where
  | literal (value : Value) (raw : String)
  | identifier (name : String)
  | unary (op : String) (argument : Node)
  | binary (op : String) (left : Node) (right : Node)
  | arrayLit (elements : List Node)
  | objectLit (entries : List (String × Node))
  | member (object : Node) (property : String)
  | indexAcc (object : Node) (index : Node)
  | call (callee : Node) (args : List Node)

/-! ### Tokenizer (parser.ts) -/

inductive TokType where
  | number | string | identifier | regex | operator | punct | eof
deriving DecidableEq, Repr

def tokTypeName : TokType → String
  | .number => "number"
  | .string => "string"
  | .identifier => "identifier"
  | .regex => "regex"
  | .operator => "operator"
  | .punct => "punct"
  | .eof => "eof"

structure Token where
  type : TokType
  value : String
  start : Nat
  stop : Nat
deriving DecidableEq, Repr

/-- `ExpressionSyntaxError` carries `${message} at index ${index}`. -/
def synErr (msg : String) (idx : Nat) : String :=
  msg ++ " at index " ++ toString idx

def isIdentStartChar (c : Char) : Bool :=
  isAsciiLetter c || c = '_' || c = '$'

def isIdentPartChar (c : Char) : Bool :=
  isAsciiLetter c || isDigitChar c || c = '_' || c = '$'

def isNumTailChar (c : Char) : Bool :=
  isDigitChar c || c = '.' || c = '_'

/-- The binary-operator precedence table. -/
def binaryPrec : String → Option Nat
  | "or" | "||" => some 1
  | "and" | "&&" => some 2
  | "==" | "!=" => some 3
  | ">" | ">=" | "<" | "<=" => some 4
  | "+" | "-" => some 5
  | "*" | "/" | "%" => some 6
  | _ => none

/-- The multi-character-first operator list, tried in order. -/
def operatorLiterals : List String :=
  ["==", "!=", ">=", "<=", "&&", "||", "+", "-", "*", "/", "%", ">", "<", "!"]

def punctuatorChars : List Char := ['(', ')', '[', ']', '.', ',']

/-- A `/` starts a pattern literal only when the previous token could not end
an operand. -/
def canStartRegex (prev : Option Token) : Bool :=
  match prev with
  | none => true
  | some tok =>
    tok.type = TokType.operator ||
      (tok.type = TokType.punct && (tok.value = "(" || tok.value = "[" || tok.value = ","))

/-- Scans a quoted string body after the opening quote: a backslash degrades
to the following character verbatim.  Returns the value characters and the
count of consumed characters (including the closing quote), or `none` when
unterminated. -/
def scanStringLit (quote : Char) : Nat → List Char → List Char → Nat →
    Option (List Char × Nat)
  | 0, _, _, _ => none
  | _ + 1, [], _, _ => none
  | fuel + 1, '\\' :: rest, acc, consumed =>
    (match rest with
     | [] => scanStringLit quote fuel [] acc (consumed + 2)
     | n :: rest2 => scanStringLit quote fuel rest2 (acc ++ [n]) (consumed + 2))
  | fuel + 1, c :: rest, acc, consumed =>
    if c = quote then some (acc, consumed + 1)
    else scanStringLit quote fuel rest (acc ++ [c]) (consumed + 1)

/-- Scans a pattern-literal body after the opening slash, honoring escapes;
returns the count of consumed characters including the closing slash. -/
def scanRegexBody : Nat → List Char → Bool → Nat → Option Nat
  | 0, _, _, _ => none
  | _ + 1, [], _, _ => none
  | fuel + 1, c :: rest, escaped, consumed =>
    if !escaped && c = '/' then some (consumed + 1)
    else if !escaped && c = '\\' then scanRegexBody fuel rest true (consumed + 1)
    else scanRegexBody fuel rest false (consumed + 1)

/-- `readToken`: one token starting at `offset`, given the previously read
token (for the pattern-literal predicate).  Returns the token and the offset
after it. -/
def readToken (input : List Char) (offset : Nat) (prev : Option Token) :
    Except String (Token × Nat) :=
  let rest0 := input.drop offset
  let wsLen := (rest0.takeWhile jsIsWhitespace).length
  let start := offset + wsLen
  let rest := rest0.drop wsLen
  match rest with
  | [] => .ok (⟨.eof, "", start, start⟩, start)
  | c :: tail =>
    if c = '"' || c = '\'' then
      match scanStringLit c (tail.length + 1) tail [] 0 with
      | none => .error (synErr "unterminated string literal" start)
      | some (valueChars, consumed) =>
        let stop := start + 1 + consumed
        .ok (⟨.string, String.mk valueChars, start, stop⟩, stop)
    else if isDigitChar c then
      let tailTok := tail.takeWhile isNumTailChar
      let text := c :: tailTok
      let stop := start + text.length
      .ok (⟨.number, String.mk (text.filter (fun ch => ch ≠ '_')), start, stop⟩, stop)
    else if isIdentStartChar c then
      let tailTok := tail.takeWhile isIdentPartChar
      let text := String.mk (c :: tailTok)
      let stop := start + 1 + tailTok.length
      if text = "and" || text = "or" || text = "not" then
        .ok (⟨.operator, text, start, stop⟩, stop)
      else
        .ok (⟨.identifier, text, start, stop⟩, stop)
    else if c = '/' && canStartRegex prev then
      match scanRegexBody (tail.length + 1) tail false 0 with
      | none => .error (synErr "unterminated regex literal" start)
      | some consumed =>
        let flags := (tail.drop consumed).takeWhile isAsciiLetter
        let total := 1 + consumed + flags.length
        let stop := start + total
        .ok (⟨.regex, String.mk (rest.take total), start, stop⟩, stop)
    else
      match operatorLiterals.find? (fun op => listIsPrefixOf op.toList rest) with
      | some op =>
        let stop := start + op.length
        .ok (⟨.operator, op, start, stop⟩, stop)
      | none =>
        if punctuatorChars.any (fun p => p = c) then
          .ok (⟨.punct, String.mk [c], start, start + 1⟩, start + 1)
        else .error (synErr ("unexpected character " ++ jsonQuote (String.mk [c])) start)

/-! ### Parser (parser.ts) -/

structure PState where
  input : List Char
  offset : Nat
  current : Token
deriving Repr

/-- `consume`: returns the current token and advances, remembering it as the
previous token for the tokenizer. -/
def pconsume (st : PState) : Except String (Token × PState) := do
  let (tok, off) ← readToken st.input st.offset (some st.current)
  pure (st.current, ⟨st.input, off, tok⟩)

def pexpect (ty : TokType) (st : PState) : Except String (Token × PState) :=
  if st.current.type ≠ ty then
    .error (synErr ("expected " ++ tokTypeName ty) st.current.start)
  else pconsume st

def isCurrentPunct (v : String) (st : PState) : Bool :=
  st.current.type = TokType.punct && st.current.value = v

def pexpectPunct (v : String) (st : PState) : Except String (Token × PState) :=
  if !isCurrentPunct v st then .error (synErr ("expected " ++ v) st.current.start)
  else pconsume st

/-- Raw text of a numeric literal becomes its JS numeric value; shapes JS
would map to NaN (like "1.2.3") are mapped to 0 and unreachable in claims. -/
def numTokenValue (text : String) : JNum :=
  match jsStringToNumber text with
  | some q => q
  | none => jint 0

/-- Splits a regex token `/body/flags` at its last slash. -/
def splitRegexToken (text : String) : String × String :=
  let rev := text.toList.reverse
  let flagsRev := rev.takeWhile (fun ch => ch ≠ '/')
  let rest := rev.drop (flagsRev.length + 1)
  (String.mk (rest.reverse.drop 1), String.mk flagsRev.reverse)

mutual

/-- `parseExpression(minPrecedence)`: precedence-climbing binary parser. -/
def parseExpr : Nat → Nat → PState → Except String (Node × PState)
  | 0, _, _ => .error "parser recursion depth exceeded"
  | fuel + 1, minPrec, st => do
    let (left, st) ← parseUnary fuel st
    parseBinRest fuel minPrec left st
termination_by structural fuel => fuel

/-- The binary-operator loop of `parseExpression`. -/
def parseBinRest : Nat → Nat → Node → PState → Except String (Node × PState)
  | 0, _, _, _ => .error "parser recursion depth exceeded"
  | fuel + 1, minPrec, left, st =>
    if st.current.type = TokType.operator then
      match binaryPrec st.current.value with
      | some prec =>
        if prec ≤ minPrec then .ok (left, st)
        else do
          let (opTok, st) ← pconsume st
          let (right, st) ← parseExpr fuel prec st
          parseBinRest fuel minPrec (.binary opTok.value left right) st
      | none => .ok (left, st)
    else .ok (left, st)
termination_by structural fuel => fuel

def parseUnary : Nat → PState → Except String (Node × PState)
  | 0, _ => .error "parser recursion depth exceeded"
  | fuel + 1, st =>
    if st.current.type = TokType.operator &&
        (st.current.value = "-" || st.current.value = "!" || st.current.value = "not") then do
      let (opTok, st) ← pconsume st
      let (argument, st) ← parseUnary fuel st
      pure (.unary opTok.value argument, st)
    else parsePostfix fuel st
termination_by structural fuel => fuel

def parsePostfix : Nat → PState → Except String (Node × PState)
  | 0, _ => .error "parser recursion depth exceeded"
  | fuel + 1, st => do
    let (expression, st) ← parsePrimary fuel st
    parsePostfixLoop fuel expression st
termination_by structural fuel => fuel

/-- The member/index/call postfix chain. -/
def parsePostfixLoop : Nat → Node → PState → Except String (Node × PState)
  | 0, _, _ => .error "parser recursion depth exceeded"
  | fuel + 1, expression, st =>
    if isCurrentPunct "." st then do
      let (_, st) ← pconsume st
      let (propertyTok, st) ← pexpect TokType.identifier st
      parsePostfixLoop fuel (.member expression propertyTok.value) st
    else if isCurrentPunct "[" st then do
      let (_, st) ← pconsume st
      let (indexExpression, st) ← parseExpr fuel 0 st
      let (_, st) ← pexpectPunct "]" st
      parsePostfixLoop fuel (.indexAcc expression indexExpression) st
    else if isCurrentPunct "(" st then do
      let (_, st) ← pconsume st
      if isCurrentPunct ")" st then do
        let (_, st) ← pexpectPunct ")" st
        parsePostfixLoop fuel (.call expression []) st
      else do
        let (args, st) ← parseArgs fuel [] st
        let (_, st) ← pexpectPunct ")" st
        parsePostfixLoop fuel (.call expression args) st
    else .ok (expression, st)
termination_by structural fuel => fuel

def parseArgs : Nat → List Node → PState → Except String (List Node × PState)
  | 0, _, _ => .error "parser recursion depth exceeded"
  | fuel + 1, acc, st => do
    let (arg, st) ← parseExpr fuel 0 st
    if isCurrentPunct "," st then do
      let (_, st) ← pconsume st
      parseArgs fuel (acc ++ [arg]) st
    else .ok (acc ++ [arg], st)
termination_by structural fuel => fuel

/-- `parsePrimary`: number, string and pattern literals, the keyword
literals, identifiers and parenthesised expressions.  (List and object
literals are absent: `[` and especially `{` fall through to the
unexpected-token/character errors.) -/
def parsePrimary : Nat → PState → Except String (Node × PState)
  | 0, _ => .error "parser recursion depth exceeded"
  | fuel + 1, st =>
    match st.current.type with
    | TokType.number => do
      let (tok, st) ← pconsume st
      pure (.literal (vNum (numTokenValue tok.value)) tok.value, st)
    | TokType.string => do
      let (tok, st) ← pconsume st
      pure (.literal (vStr tok.value) (jsonQuote tok.value), st)
    | TokType.regex => do
      let (tok, st) ← pconsume st
      let (body, flags) := splitRegexToken tok.value
      pure (.literal (vRegex body flags) tok.value, st)
    | TokType.identifier => do
      let (tok, st) ← pconsume st
      if tok.value = "true" then pure (.literal (vBool true) tok.value, st)
      else if tok.value = "false" then pure (.literal (vBool false) tok.value, st)
      else if tok.value = "null" then pure (.literal vNull tok.value, st)
      else pure (.identifier tok.value, st)
    | _ =>
      if isCurrentPunct "(" st then do
        let (_, st) ← pconsume st
        let (expression, st) ← parseExpr fuel 0 st
        let (_, st) ← pexpectPunct ")" st
        pure (expression, st)
      else
        .error (synErr ("unexpected token " ++ jsonQuote st.current.value) st.current.start)
termination_by structural fuel => fuel

end

/-- `parseExpression(input)`: parse with full input consumption. -/
def parseExpression (input : String) : Except String Node := do
  let chars := input.toList
  let (tok, off) ← readToken chars 0 none
  let st : PState := ⟨chars, off, tok⟩
  let (expression, st) ← parseExpr (8 * (chars.length + 4)) 0 st
  if st.current.type ≠ TokType.eof then
    .error (synErr ("unexpected token " ++ jsonQuote st.current.value) st.current.start)
  else pure expression

/-- `compileExpression` is `parseExpression`. -/
def compileExpression (source : String) : Except String Node :=
  parseExpression source

example : parseExpression "[1, 2, title]" =
    .error (synErr ("unexpected token " ++ jsonQuote "[") 0) := by rfl

example : (parseExpression "1 + 2 * 3") =
    .ok (.binary "+" (.literal (vNum (jint 1)) "1")
      (.binary "*" (.literal (vNum (jint 2)) "2") (.literal (vNum (jint 3)) "3"))) := by rfl

/-! ### Evaluator helpers -/

/-- An evaluation context is a JS object (the row context, or a method-scoped
extension of it); `filesByPath` (a `Map` in the source) is modelled as an
object entry holding an association list. -/
abbrev Ctx := List (String × Value)

def normalizeTag (tag : String) : String :=
  let t := jsTrim tag
  match t.toList with
  | '#' :: rest => String.mk rest
  | _ => t

/-- Substring occurrence scan (`String.prototype.includes`). -/
def listHasInfix (needle : List Char) : Nat → List Char → Bool
  | 0, _ => false
  | _ + 1, [] => needle.isEmpty
  | fuel + 1, c :: rest =>
    listIsPrefixOf needle (c :: rest) || listHasInfix needle fuel rest

def strIncludes (s needle : String) : Bool :=
  listHasInfix needle.toList (s.length + 1) s.toList

/-- `String.prototype.replaceAll` with a plain-string pattern. -/
def replaceAllChars (pattern replacement : List Char) : Nat → List Char → List Char
  | 0, s => s
  | _ + 1, [] => []
  | fuel + 1, c :: rest =>
    if !pattern.isEmpty && listIsPrefixOf pattern (c :: rest) then
      replacement ++ replaceAllChars pattern replacement fuel ((c :: rest).drop pattern.length)
    else c :: replaceAllChars pattern replacement fuel rest

def strReplaceAll (s pattern replacement : String) : String :=
  String.mk (replaceAllChars pattern.toList replacement.toList (s.length + 1) s.toList)

/-- JS `slice` index normalisation over a list of length `len`. -/
def jsSliceClamp (len : Nat) (i : Int) : Nat :=
  if i < 0 then (max 0 ((len : Int) + i)).toNat else min i.toNat len

def jsSlice (xs : List α) (start : Int) (stop : Option Int) : List α :=
  let s := jsSliceClamp xs.length start
  let e := match stop with
    | none => xs.length
    | some i => jsSliceClamp xs.length i
  (xs.take e).drop s

/-- `String.prototype.split` with a plain-string separator. -/
def splitChars (sep : List Char) : Nat → List Char → List Char → List (List Char)
  | 0, _, acc => [acc]
  | _ + 1, [], acc => [acc]
  | fuel + 1, c :: rest, acc =>
    if !sep.isEmpty && listIsPrefixOf sep (c :: rest) then
      acc :: splitChars sep fuel ((c :: rest).drop sep.length) []
    else splitChars sep fuel rest (acc ++ [c])

def jsStrSplit (s sep : String) : List String :=
  if sep = "" then s.toList.map (fun c => String.mk [c])
  else (splitChars sep.toList (s.length + 1) s.toList []).map String.mk

def repeatStr (s : String) (n : Nat) : String :=
  String.mk (List.flatten (List.replicate n s.toList))

/-- `/\b\w/g`-uppercasing used by the title-case method. -/
def titleCaseChars : List Char → Bool → List Char
  | [], _ => []
  | c :: rest, prevWord =>
    (if !prevWord && isWordChar c then
      (if isAsciiLower c then Char.ofNat (c.toNat - 32) else c)
     else c) :: titleCaseChars rest (isWordChar c)

def escapeHtml (s : String) : String :=
  strReplaceAll (strReplaceAll (strReplaceAll (strReplaceAll (strReplaceAll s
    "&" "&amp;") "<" "&lt;") ">" "&gt;") "\"" "&quot;") "'" "&#39;"

/-- `formatDate`: the YYYY/MM/DD/HH/mm/ss/SSS token replacement. -/
def formatDate (t : Int) (format : String) : String :=
  strReplaceAll (strReplaceAll (strReplaceAll (strReplaceAll (strReplaceAll
    (strReplaceAll (strReplaceAll format
    "YYYY" (intToDecimal (dateYear t)))
    "MM" (pad2 (dateMonth t)))
    "DD" (pad2 (dateDayOfMonth t)))
    "HH" (pad2 (dateHours t)))
    "mm" (pad2 (dateMinutes t)))
    "ss" (pad2 (dateSeconds t)))
    "SSS" (pad3 (dateMillis t))

/-- JS `Math.round` (half toward positive infinity). -/
def jnumRoundHalfUp (q : JNum) : Int :=
  jnumFloor (jnumAdd q ⟨1, 2⟩)

/-- `Number.prototype.toFixed` (ties on the magnitude round away from 0). -/
def toFixedStr (q : JNum) (p : Nat) : String :=
  let neg := jnumLt q (jint 0)
  let mag := if neg then jnumNeg q else q
  let scale : Int := (10 : Int) ^ p
  let n := (jnumFloor (jnumAdd (jnumMul mag (jint scale)) ⟨1, 2⟩)).toNat
  let ip := n / scale.toNat
  let fp := n % scale.toNat
  let fpStr := toString fp
  let fpPadded := String.mk (List.replicate (p - fpStr.length) '0') ++ fpStr
  (if neg && n ≠ 0 then "-" else "") ++ toString ip ++ (if p = 0 then "" else "." ++ fpPadded)

/-- Strict ISO parse for `new Date(string)`: the date-only form `YYYY-MM-DD`
(UTC midnight per the JS specification).  Other date strings are a modelling
boundary (`none`); no verified claim constructs a Date from a string. -/
def parseIsoDate (s : String) : Option Int :=
  match s.toList with
  | [y1, y2, y3, y4, '-', m1, m2, '-', d1, d2] =>
    if [y1, y2, y3, y4, m1, m2, d1, d2].all isDigitChar then
      some (utcMs (natOfDigits [y1, y2, y3, y4]) (natOfDigits [m1, m2]) (natOfDigits [d1, d2]) 0)
    else none
  | _ => none

/-- `toDate`: a Date passes through, everything else goes through the JS Date
string constructor (modelled for ISO date-only strings). -/
def toDate (v : Value) : Except String Int :=
  match v with
  | vDate t => .ok t
  | _ =>
    match parseIsoDate (jsStringCoerce v) with
    | some t => .ok t
    | none => .error ("date string not modelled: " ++ jsStringCoerce v)

/-- `inferType`, in source test order. -/
def inferType : Value → String
  | vNull => "null"
  | vUndef => "null"
  | vDate _ => "date"
  | vRegex _ _ => "regexp"
  | vDur _ => "duration"
  | vLink _ _ => "link"
  | vObj fields => if isFileLike (vObj fields) then "file" else "object"
  | vHtml _ => "html"
  | vImage _ => "image"
  | vIcon _ => "icon"
  | vList _ => "list"
  | vStr _ => "string"
  | vNum _ => "number"
  | vBool _ => "boolean"

/-- Own-property view of the record-typed values, for member access and
indexing (`object[key]`).  Prototype-chain properties (JS methods) are a
modelling boundary no claim touches. -/
def recordOwnFields : Value → Option (List (String × Value))
  | vObj fields => some fields
  | vDur parts =>
    some [("__kind", vStr "duration"),
      ("parts", vList (parts.map (fun p =>
        vObj [("unit", vStr (dUnitName p.1)), ("value", vNum p.2)])))]
  | vLink p display =>
    some [("__kind", vStr "link"), ("path", vStr p), ("display", display.getD vUndef)]
  | vHtml s => some [("__kind", vStr "html"), ("html", vStr s)]
  | vImage s => some [("__kind", vStr "image"), ("source", vStr s)]
  | vIcon s => some [("__kind", vStr "icon"), ("name", vStr s)]
  | vRegex _ _ => some []
  | _ => none

/-- Canonical array-index key (JS: `"1" in [a, b]` but not `"01"`). -/
def canonicalIndex (s : String) : Option Nat :=
  match s.toList with
  | [] => none
  | ['0'] => some 0
  | c :: rest =>
    if c ≠ '0' && (c :: rest).all isDigitChar then some (natOfDigits (c :: rest))
    else none

def createSyntheticFile (pathLike : String) : Value :=
  let path := normalizePath pathLike
  let name := basenameOfNormalized path
  let folderLen : Nat := path.length - name.length
  let folder := if name.length = path.length then "" else path.take (folderLen - 1)
  let revName := name.toList.reverse
  let ext :=
    if revName.any (fun c => c = '.') then
      String.mk ('.' :: (revName.takeWhile (fun c => c ≠ '.')).reverse)
    else ""
  vObj [("name", vStr name), ("basename", vStr (basenameWithoutExt name)),
    ("path", vStr path), ("folder", vStr folder), ("ext", vStr ext),
    ("size", vNum (jint 0)), ("ctime", vDate 0), ("mtime", vDate 0),
    ("properties", vObj []), ("tags", vList []), ("links", vList []),
    ("embeds", vList []), ("backlinks", vList []), ("raw", vStr "")]

def lookupFile (pathLike : String) (ctx : Ctx) : Option Value :=
  match objGet ctx "filesByPath" with
  | some (vObj map) =>
    let normalized := normalizePath pathLike
    let candidates := [normalized, basenameOfNormalized normalized,
      basenameWithoutExt normalized, basenameWithoutExt normalized ++ ".md"]
    (candidates.filterMap (fun cand =>
      match objGet map cand with
      | some v => if jsIsRecord v then some v else none
      | none => none)).head?
  | _ => none

def resolveFileArg (v : Value) (ctx : Ctx) : Option Value :=
  if isFileLike v then some v
  else
    match v with
    | vLink p _ => some ((lookupFile p ctx).getD (createSyntheticFile p))
    | vStr s => some ((lookupFile s ctx).getD (createSyntheticFile s))
    | _ => none

def matchesLinkTarget (link target : String) : Bool :=
  let normalize := fun (s : String) => strToLower (stripMdSuffix (normalizePath s))
  let left := normalize link
  let right := normalize target
  left = right || basenameOfNormalized left = basenameOfNormalized right

/-- Full flatten (`flat(Infinity)`); the fuel bounds only the nesting depth
(1000 at top level, unreachable in this development). -/
def flattenAll : Nat → List Value → List Value
  | 0, xs => xs
  | _ + 1, [] => []
  | fuel + 1, vList ys :: rest => flattenAll fuel ys ++ flattenAll fuel rest
  | fuel + 1, x :: rest => x :: flattenAll fuel rest

/-- Monadic stable insertion sort (the comparator may raise). -/
def insertByCmpM (cmp : α → α → Except String JNum) (x : α) :
    List α → Except String (List α)
  | [] => pure [x]
  | y :: ys => do
    let c ← cmp x y
    if jnumLe c (jint 0) then pure (x :: y :: ys)
    else do
      let rest ← insertByCmpM cmp x ys
      pure (y :: rest)

def sortByCmpM (cmp : α → α → Except String JNum) : List α → Except String (List α)
  | [] => pure []
  | x :: xs => do
    let sorted ← sortByCmpM cmp xs
    insertByCmpM cmp x sorted

/-- `list.some(entry => equalsValues(entry, needle))`. -/
def listContainsValue (strict : Bool) (xs : List Value) (needle : Value) :
    Except String Bool :=
  xs.foldlM (fun acc entry => do
    if acc then pure true
    else equalsValues strict entry needle) false

def uniqueByStable (xs : List Value) : List Value :=
  (xs.foldl (fun (acc : List Value × List String) entry =>
    let key := stableStringify entry
    if acc.2.any (fun k => k = key) then acc
    else (acc.1 ++ [entry], acc.2 ++ [key])) ([], [])).1

/-! ### Identifier and member resolution -/

/-- `resolveIdentifier`: own context fields first; then, whenever a truthy
`note` is present, its field (absent keys give undefined with no error);
otherwise a strict-mode error. -/
def resolveIdentifier (strict : Bool) (ctx : Ctx) (name : String) :
    Except String Value :=
  if objHasOwn ctx name then .ok ((objGet ctx name).getD vUndef)
  else
    let noteV := (objGet ctx "note").getD vUndef
    if toBoolean noteV then
      .ok (match noteV with
        | vObj fields => (objGet fields name).getD vUndef
        | _ => vUndef)
    else if strict then .error ("unknown identifier: " ++ name)
    else .ok vUndef

/-- `resolveMember`. -/
def resolveMember (strict : Bool) (obj : Value) (property : String) :
    Except String Value :=
  if isNullish obj then
    if strict then .error ("cannot access property " ++ property ++ " on nullish value")
    else .ok vUndef
  else
    match obj with
    | vDate t =>
      (match property with
       | "year" => .ok (vNum (jint (dateYear t)))
       | "month" => .ok (vNum (jint (dateMonth t)))
       | "day" => .ok (vNum (jint (dateDayOfMonth t)))
       | "hour" => .ok (vNum (jint (dateHours t)))
       | "minute" => .ok (vNum (jint (dateMinutes t)))
       | "second" => .ok (vNum (jint (dateSeconds t)))
       | "millisecond" => .ok (vNum (jint (dateMillis t)))
       | _ =>
         if strict then .error ("unknown property: " ++ property)
         else .ok vUndef)
    | _ =>
      if isFileLike obj && property = "file" then .ok obj
      else
        match obj with
        | vStr s =>
          if property = "length" then .ok (vNum (jint s.length))
          else if strict then
            .error ("cannot access property " ++ property ++ " on non-object value")
          else .ok vUndef
        | vList xs =>
          if property = "length" then .ok (vNum (jint xs.length))
          else
            (match canonicalIndex property with
             | some i =>
               (match xs.get? i with
                | some x => .ok x
                | none => .ok vUndef)
             | none => .ok vUndef)
        | _ =>
          match recordOwnFields obj with
          | some fields =>
            (match objGet fields property with
             | some v => .ok v
             | none =>
               if isFileLike obj && strict then
                 .error ("unknown property: " ++ property)
               else .ok vUndef)
          | none =>
            if strict then
              .error ("cannot access property " ++ property ++ " on non-object value")
            else .ok vUndef

/-! ### The evaluator

`evaluateAstGo` is the single recursive AST walker; the global-function and
per-type-method registries are the match arms of `invokeGlobalFn` and
`invokeMethodFn` (static tables in the source).  The fuel only bounds the
recursion depth; the top-level budget of 1000000 is unreachable for every
expression in this development.  Modelling boundaries (each raises a
dedicated error, none reachable from a verified claim): `now`/`today`/
`relative` (wall clock), Date construction from non-ISO strings, and
regular-expression matching (`regexp().matches`, regex `replace`/`split`). -/

def listGetD (xs : List Value) (i : Nat) : Value :=
  (xs.get? i).getD vUndef

/-- `hasLink`: the target path of the argument must resolve non-empty, then
any outbound link of the file may match it. -/
def hasLinkCore (target other : Value) : Bool :=
  if !isFileLike target then false
  else
    match resolveComparablePath other with
    | none => false
    | some targetPath =>
      if targetPath = "" then false
      else
        let links := match recordOwnFields target with
          | some fields =>
            (match objGet fields "links" with
             | some (vList ls) => ls.map stringifyValue
             | _ => [])
          | none => []
        links.any (fun entry => matchesLinkTarget entry targetPath)

/-- Node list indexing used by the lazy `if`. -/
def listGetNode (nodes : List Node) (i : Nat) : Node :=
  (nodes.get? i).getD (.literal vNull "null")

mutual

def evaluateAstGo : Nat → Node → Ctx → Bool → Except String Value
  | 0, _, _, _ => .error "evaluator recursion depth exceeded"
  | fuel + 1, node, ctx, strict =>
    match node with
    | .literal v _ => .ok v
    | .identifier nm => resolveIdentifier strict ctx nm
    | .arrayLit elems => do
      pure (vList (← evalNodeList fuel elems ctx strict))
    | .objectLit entries => do
      pure (vObj (← evalObjEntries fuel entries ctx strict))
    | .unary op argument => do
      let v ← evaluateAstGo fuel argument ctx strict
      match op with
      | "-" => pure (vNum (jnumNeg (← toNumber strict v)))
      | "!" => pure (vBool (!toBoolean v))
      | "not" => pure (vBool (!toBoolean v))
      | _ => .error ("unsupported unary operator: " ++ op)
    | .binary op left right =>
      if op = "and" || op = "&&" then do
        let lv ← evaluateAstGo fuel left ctx strict
        if toBoolean lv then evaluateAstGo fuel right ctx strict
        else pure (vBool false)
      else if op = "or" || op = "||" then do
        let lv ← evaluateAstGo fuel left ctx strict
        if toBoolean lv then pure (vBool true)
        else evaluateAstGo fuel right ctx strict
      else do
        let lv ← evaluateAstGo fuel left ctx strict
        let rv ← evaluateAstGo fuel right ctx strict
        match op with
        | "==" => do pure (vBool (← equalsValues strict lv rv))
        | "!=" => do pure (vBool (!(← equalsValues strict lv rv)))
        | ">" => do pure (vBool (jnumLt (jint 0) (← compareValues strict lv rv)))
        | ">=" => do pure (vBool (jnumLe (jint 0) (← compareValues strict lv rv)))
        | "<" => do pure (vBool (jnumLt (← compareValues strict lv rv) (jint 0)))
        | "<=" => do pure (vBool (jnumLe (← compareValues strict lv rv) (jint 0)))
        | "+" => addValues strict lv rv
        | "-" => subtractValues strict lv rv
        | "*" => multiplyValues strict lv rv
        | "/" => divideValues strict lv rv
        | "%" => do pure (vNum (jnumMod (← toNumber strict lv) (← toNumber strict rv)))
        | _ => .error ("unsupported binary operator: " ++ op)
    | .member object property => do
      resolveMember strict (← evaluateAstGo fuel object ctx strict) property
    | .indexAcc object index => do
      let ov ← evaluateAstGo fuel object ctx strict
      let iv ← evaluateAstGo fuel index ctx strict
      match ov with
      | vList xs => do
        let n ← toNumber strict iv
        let idx := jnumTrunc n
        pure (if 0 ≤ idx then listGetD xs idx.toNat else vUndef)
      | _ =>
        if jsIsRecord ov && (isStrV iv || isNumV iv) then
          match recordOwnFields ov with
          | some fields => pure ((objGet fields (jsStringCoerce iv)).getD vUndef)
          | none => pure vUndef
        else if strict then .error "cannot index non-indexable value"
        else pure vUndef
    | .call callee args =>
      match callee with
      | .identifier nm => invokeGlobalFn fuel nm args ctx strict
      | .member object property => do
        invokeMethodFn fuel (← evaluateAstGo fuel object ctx strict) property args ctx strict
      | _ =>
        if strict then .error "unsupported call target"
        else pure vUndef
termination_by structural fuel => fuel

def evalNodeList : Nat → List Node → Ctx → Bool → Except String (List Value)
  | 0, _, _, _ => .error "evaluator recursion depth exceeded"
  | _ + 1, [], _, _ => pure []
  | fuel + 1, n :: rest, ctx, strict => do
    let v ← evaluateAstGo fuel n ctx strict
    let vs ← evalNodeList fuel rest ctx strict
    pure (v :: vs)
termination_by structural fuel => fuel

def evalObjEntries : Nat → List (String × Node) → Ctx → Bool →
    Except String (List (String × Value))
  | 0, _, _, _ => .error "evaluator recursion depth exceeded"
  | _ + 1, [], _, _ => pure []
  | fuel + 1, (k, n) :: rest, ctx, strict => do
    let v ← evaluateAstGo fuel n ctx strict
    let vs ← evalObjEntries fuel rest ctx strict
    pure ((k, v) :: vs)
termination_by structural fuel => fuel

/-- The global-function registry (`globalFunctions`). -/
def invokeGlobalFn : Nat → String → List Node → Ctx → Bool → Except String Value
  | 0, _, _, _, _ => .error "evaluator recursion depth exceeded"
  | fuel + 1, name, argNodes, ctx, strict =>
    match name with
    | "escapeHTML" => do
      let args ← evalNodeList fuel argNodes ctx strict
      pure (vStr (escapeHtml (stringifyValue (args.headD vUndef))))
    | "date" => do
      let args ← evalNodeList fuel argNodes ctx strict
      pure (vDate (← toDate (args.headD vUndef)))
    | "duration" => do
      let args ← evalNodeList fuel argNodes ctx strict
      match args.headD vUndef with
      | vDur parts => pure (vDur parts)
      | vStr s => do pure (vDur (← parseDuration s))
      | _ => .error "duration() requires a duration string"
    | "file" => do
      let args ← evalNodeList fuel argNodes ctx strict
      pure ((resolveFileArg (args.headD vUndef) ctx).getD vUndef)
    | "html" => do
      let args ← evalNodeList fuel argNodes ctx strict
      pure (vHtml (stringifyValue (args.headD vUndef)))
    | "if" =>
      if argNodes.length < 2 then .error "if() expects at least 2 arguments"
      else do
        let condition ← evaluateAstGo fuel (argNodes.headD (.literal vNull "null")) ctx strict
        if toBoolean condition then
          evaluateAstGo fuel (listGetNode argNodes 1) ctx strict
        else if argNodes.length ≥ 3 then
          evaluateAstGo fuel (listGetNode argNodes 2) ctx strict
        else pure vNull
    | "image" => do
      let args ← evalNodeList fuel argNodes ctx strict
      pure (vImage (stringifyValue (args.headD vUndef)))
    | "icon" => do
      let args ← evalNodeList fuel argNodes ctx strict
      pure (vIcon (stringifyValue (args.headD vUndef)))
    | "link" => do
      let args ← evalNodeList fuel argNodes ctx strict
      pure (vLink (normalizePath (stringifyValue (args.headD vUndef))) (args.get? 1))
    | "list" => do
      let args ← evalNodeList fuel argNodes ctx strict
      match args with
      | [] => pure (vList [])
      | [vList xs] => pure (vList xs)
      | [x] => pure (vList [x])
      | _ => pure (vList args)
    | "max" => do
      let args ← evalNodeList fuel argNodes ctx strict
      let values := match args with
        | [vList xs] => xs
        | _ => args
      let nums ← values.mapM (toNumber strict)
      match nums with
      | [] => .error "Math.max of no arguments (-Infinity) is not modelled"
      | n :: rest => pure (vNum (rest.foldl (fun a b => if jnumLt a b then b else a) n))
    | "min" => do
      let args ← evalNodeList fuel argNodes ctx strict
      let values := match args with
        | [vList xs] => xs
        | _ => args
      let nums ← values.mapM (toNumber strict)
      match nums with
      | [] => .error "Math.min of no arguments (Infinity) is not modelled"
      | n :: rest => pure (vNum (rest.foldl (fun a b => if jnumLt b a then b else a) n))
    | "now" => .error "now() is wall-clock-dependent and not modelled"
    | "today" => .error "today() is wall-clock-dependent and not modelled"
    | "number" => do
      let args ← evalNodeList fuel argNodes ctx strict
      pure (vNum (← toNumber strict (args.headD vUndef)))
    | "regexp" => do
      let args ← evalNodeList fuel argNodes ctx strict
      pure (vRegex (stringifyValue (args.headD vUndef)) (stringifyValue (args.getD 1 (vStr ""))))
    | "contains" => do
      let args ← evalNodeList fuel argNodes ctx strict
      let container := args.headD vUndef
      let needle := args.getD 1 vUndef
      match container with
      | vStr s => pure (vBool (strIncludes s (stringifyValue needle)))
      | vList xs => do pure (vBool (← listContainsValue strict xs needle))
      | _ =>
        if jsIsRecord container then
          match recordOwnFields container with
          | some fields =>
            pure (vBool (!isNullish needle && objHasOwn fields (jsStringCoerce needle)))
          | none => pure (vBool false)
        else pure (vBool false)
    | "sum" => do
      let args ← evalNodeList fuel argNodes ctx strict
      match args.headD vUndef with
      | vList xs => do
        let nums ← xs.mapM (toNumber strict)
        pure (vNum (nums.foldl jnumAdd (jint 0)))
      | _ => pure (vNum (jint 0))
    | "avg" => do
      let args ← evalNodeList fuel argNodes ctx strict
      match args.headD vUndef with
      | vList [] => pure (vNum (jint 0))
      | vList xs => do
        let nums ← xs.mapM (toNumber strict)
        pure (vNum (jnumDiv (nums.foldl jnumAdd (jint 0)) (jint xs.length)))
      | _ => pure (vNum (jint 0))
    | "count" => do
      let args ← evalNodeList fuel argNodes ctx strict
      match args.headD vUndef with
      | vList xs => pure (vNum (jint xs.length))
      | _ => pure (vNum (jint 0))
    | _ =>
      if strict then .error ("unknown function: " ++ name)
      else pure vUndef
termination_by structural fuel => fuel

/-- The per-type method registries with the type-agnostic fallback
(`methodRegistries` and `anyMethods`). -/
def invokeMethodFn : Nat → Value → String → List Node → Ctx → Bool → Except String Value
  | 0, _, _, _, _, _ => .error "evaluator recursion depth exceeded"
  | fuel + 1, target, name, argNodes, ctx, strict =>
    let listOf : Value → List Value := fun v =>
      match v with
      | vList xs => xs
      | _ => []
    match inferType target, name with
    | "date", "date" => do
      let t ← toDate target
      pure (vDate (t - dateTod t))
    | "date", "format" => do
      let args ← evalNodeList fuel argNodes ctx strict
      let t ← toDate target
      pure (vStr (formatDate t (stringifyValue (args.headD vUndef))))
    | "date", "time" => do
      let t ← toDate target
      pure (vStr (formatDate t "HH:mm:ss"))
    | "date", "relative" => .error "relative() is wall-clock-dependent and not modelled"
    | "date", "isEmpty" => pure (vBool false)
    | "string", "contains" => do
      let args ← evalNodeList fuel argNodes ctx strict
      pure (vBool (strIncludes (stringifyValue target) (stringifyValue (args.headD vUndef))))
    | "string", "containsAll" => do
      let args ← evalNodeList fuel argNodes ctx strict
      pure (vBool (args.all (fun n => strIncludes (stringifyValue target) (stringifyValue n))))
    | "string", "containsAny" => do
      let args ← evalNodeList fuel argNodes ctx strict
      pure (vBool (args.any (fun n => strIncludes (stringifyValue target) (stringifyValue n))))
    | "string", "endsWith" => do
      let args ← evalNodeList fuel argNodes ctx strict
      pure (vBool (strEndsWith (stringifyValue target) (stringifyValue (args.headD vUndef))))
    | "string", "isEmpty" => pure (vBool ((stringifyValue target).length = 0))
    | "string", "lower" => pure (vStr (strToLower (stringifyValue target)))
    | "string", "upper" => pure (vStr (strToUpper (stringifyValue target)))
    | "string", "replace" => do
      let args ← evalNodeList fuel argNodes ctx strict
      match args.headD vUndef with
      | vRegex _ _ => .error "regexp replace is not modelled"
      | p => pure (vStr (strReplaceAll (stringifyValue target) (stringifyValue p)
          (stringifyValue (args.getD 1 vUndef))))
    | "string", "repeat" => do
      let args ← evalNodeList fuel argNodes ctx strict
      let count ← toNumber strict (args.headD vUndef)
      pure (vStr (repeatStr (stringifyValue target) (max 0 (jnumFloor count)).toNat))
    | "string", "reverse" =>
      pure (vStr (String.mk (stringifyValue target).toList.reverse))
    | "string", "slice" => do
      let args ← evalNodeList fuel argNodes ctx strict
      let start ← toNumber strict (args.headD vUndef)
      let stopRaw := args.getD 1 vUndef
      let stop ← if isNullish stopRaw then pure none
        else do pure (some (jnumTrunc (← toNumber strict stopRaw)))
      pure (vStr (String.mk (jsSlice (stringifyValue target).toList (jnumTrunc start) stop)))
    | "string", "split" => do
      let args ← evalNodeList fuel argNodes ctx strict
      match args.headD vUndef with
      | vRegex _ _ => .error "regexp split is not modelled"
      | sep => do
        let parts := (jsStrSplit (stringifyValue target) (stringifyValue sep)).map vStr
        let limitRaw := args.getD 1 vUndef
        if isNullish limitRaw then pure (vList parts)
        else do
          let limit ← toNumber strict limitRaw
          pure (vList (parts.take (max 0 (jnumTrunc limit)).toNat))
    | "string", "startsWith" => do
      let args ← evalNodeList fuel argNodes ctx strict
      pure (vBool (strStartsWith (stringifyValue target) (stringifyValue (args.headD vUndef))))
    | "string", "title" =>
      pure (vStr (String.mk (titleCaseChars (strToLower (stringifyValue target)).toList false)))
    | "string", "trim" => pure (vStr (jsTrim (stringifyValue target)))
    | "number", "abs" => do
      let q ← toNumber strict target
      pure (vNum (if jnumLt q (jint 0) then jnumNeg q else q))
    | "number", "ceil" => do
      let q ← toNumber strict target
      pure (vNum (jint (jnumCeil q)))
    | "number", "floor" => do
      let q ← toNumber strict target
      pure (vNum (jint (jnumFloor q)))
    | "number", "isEmpty" => pure (vBool (isNullish target))
    | "number", "round" => do
      let args ← evalNodeList fuel argNodes ctx strict
      let digitsRaw := args.headD vUndef
      let digits ← if isNullish digitsRaw then pure (0 : Nat)
        else do pure (max 0 (jnumFloor (← toNumber strict digitsRaw))).toNat
      let numeric ← toNumber strict target
      let multiplier : Int := (10 : Int) ^ digits
      pure (vNum ⟨jnumRoundHalfUp (jnumMul numeric (jint multiplier)), multiplier⟩)
    | "number", "toFixed" => do
      let args ← evalNodeList fuel argNodes ctx strict
      let precisionRaw := args.headD vUndef
      let precision ← if isNullish precisionRaw then pure (0 : Nat)
        else do pure (max 0 (jnumFloor (← toNumber strict precisionRaw))).toNat
      let numeric ← toNumber strict target
      pure (vStr (toFixedStr numeric precision))
    | "list", "contains" => do
      let args ← evalNodeList fuel argNodes ctx strict
      pure (vBool (← listContainsValue strict (listOf target) (args.headD vUndef)))
    | "list", "containsAll" => do
      let needles ← evalNodeList fuel argNodes ctx strict
      let b ← needles.foldlM (fun acc needle => do
        if !acc then pure false
        else listContainsValue strict (listOf target) needle) true
      pure (vBool b)
    | "list", "containsAny" => do
      let needles ← evalNodeList fuel argNodes ctx strict
      let b ← needles.foldlM (fun acc needle => do
        if acc then pure true
        else listContainsValue strict (listOf target) needle) false
      pure (vBool b)
    | "list", "filter" =>
      (match argNodes.head? with
       | none => pure (vList (listOf target))
       | some expression => do
         pure (vList (← filterLoop fuel expression (listOf target) 0 ctx strict)))
    | "list", "flat" => pure (vList (flattenAll 1000 (listOf target)))
    | "list", "isEmpty" => pure (vBool (listOf target).isEmpty)
    | "list", "join" => do
      let args ← evalNodeList fuel argNodes ctx strict
      let separator := args.headD vUndef
      let joiner := if isNullish separator then "," else stringifyValue separator
      pure (vStr (joinParts ((listOf target).map stringifyValue) joiner))
    | "list", "map" =>
      (match argNodes.head? with
       | none => pure (vList (listOf target))
       | some expression => do
         pure (vList (← mapLoop fuel expression (listOf target) 0 ctx strict)))
    | "list", "reduce" =>
      (match argNodes.head? with
       | none => pure vUndef
       | some expression => do
         let initial ← match argNodes.get? 1 with
           | some initNode => evaluateAstGo fuel initNode ctx strict
           | none => pure vUndef
         reduceLoop fuel expression (listOf target) 0 initial ctx strict)
    | "list", "reverse" => pure (vList (listOf target).reverse)
    | "list", "slice" => do
      let args ← evalNodeList fuel argNodes ctx strict
      let startRaw := args.headD vUndef
      let start ← if isNullish startRaw then pure (jint 0) else toNumber strict startRaw
      let stopRaw := args.getD 1 vUndef
      let stop ← if isNullish stopRaw then pure none
        else do pure (some (jnumTrunc (← toNumber strict stopRaw)))
      pure (vList (jsSlice (listOf target) (jnumTrunc start) stop))
    | "list", "sort" => do
      pure (vList (← sortByCmpM (compareValues strict) (listOf target)))
    | "list", "unique" => pure (vList (uniqueByStable (listOf target)))
    | "link", "asFile" =>
      (match target with
       | vLink p _ => pure ((resolveFileArg (vStr p) ctx).getD vUndef)
       | _ => pure vUndef)
    | "link", "linksTo" =>
      (match target with
       | vLink p _ => do
         let args ← evalNodeList fuel argNodes ctx strict
         let other := args.headD vUndef
         (match resolveFileArg (vStr p) ctx with
          | none => pure (vBool false)
          | some sourceFile => pure (vBool (hasLinkCore sourceFile other)))
       | _ => pure (vBool false))
    | "file", "asLink" => do
      let file := if isFileLike target then target
        else createSyntheticFile (stringifyValue target)
      let args ← evalNodeList fuel argNodes ctx strict
      let path := match recordOwnFields file with
        | some fields =>
          (match objGet fields "path" with
           | some (vStr s) => s
           | _ => "")
        | none => ""
      pure (vLink (normalizePath path) (some (args.headD vUndef)))
    | "file", "hasLink" => do
      let args ← evalNodeList fuel argNodes ctx strict
      pure (vBool (hasLinkCore target (args.headD vUndef)))
    | "file", "hasProperty" => do
      if !isFileLike target then pure (vBool false)
      else do
        let args ← evalNodeList fuel argNodes ctx strict
        let propName := stringifyValue (args.headD vUndef)
        let props := match recordOwnFields target with
          | some fields =>
            (match objGet fields "properties" with
             | some (vObj ps) => ps
             | _ => [])
          | none => []
        pure (vBool (objHasOwn props propName))
    | "file", "hasTag" => do
      if !isFileLike target then pure (vBool false)
      else do
        let args ← evalNodeList fuel argNodes ctx strict
        let tags := match recordOwnFields target with
          | some fields =>
            (match objGet fields "tags" with
             | some (vList ts) =>
               (ts.filterMap (fun t => match t with
                 | vStr s => some (normalizeTag s)
                 | _ => none))
             | _ => [])
          | none => []
        let wanted := (args.map (fun a => normalizeTag (stringifyValue a))).filter
          (fun t => t.length > 0)
        pure (vBool (wanted.any (fun q =>
          tags.any (fun tag => tag = q || strStartsWith tag (q ++ "/")))))
    | "file", "inFolder" => do
      if !isFileLike target then pure (vBool false)
      else do
        let args ← evalNodeList fuel argNodes ctx strict
        let folder := String.mk
          (((normalizePath (stringifyValue (args.headD vUndef))).toList.reverse.dropWhile
            (fun c => c = '/')).reverse)
        let fileFolder := normalizePath (match recordOwnFields target with
          | some fields => jsStringCoerce ((objGet fields "folder").getD vUndef)
          | none => "undefined")
        if folder.length = 0 then pure (vBool true)
        else pure (vBool (fileFolder = folder || strStartsWith fileFolder (folder ++ "/")))
    | "object", "isEmpty" =>
      (match target with
       | vObj fields => pure (vBool fields.isEmpty)
       | _ => pure (vBool true))
    | "object", "keys" =>
      (match target with
       | vObj fields => pure (vList (fields.map (fun f => vStr f.1)))
       | _ => pure (vList []))
    | "object", "values" =>
      (match target with
       | vObj fields => pure (vList (fields.map (fun f => f.2)))
       | _ => pure (vList []))
    | "regexp", "matches" => .error "regexp matching is not modelled"
    | _, "isTruthy" => pure (vBool (toBoolean target))
    | _, "isType" => do
      let args ← evalNodeList fuel argNodes ctx strict
      let expected := strToLower (stringifyValue (args.headD vUndef))
      let actual := strToLower (inferType target)
      if expected = "regex" then pure (vBool (actual = "regexp"))
      else if expected = "array" then pure (vBool (actual = "list"))
      else pure (vBool (actual = expected))
    | _, "toString" => pure (vStr (stringifyValue target))
    | _, "isEmpty" =>
      if isNullish target then pure (vBool true)
      else
        (match target with
         | vStr s => pure (vBool (s.length = 0))
         | vList xs => pure (vBool xs.isEmpty)
         | vObj fields => pure (vBool fields.isEmpty)
         | _ => pure (vBool false))
    | _, _ =>
      if strict then .error ("unknown method: " ++ name)
      else pure vUndef
termination_by structural fuel => fuel

def filterLoop : Nat → Node → List Value → Nat → Ctx → Bool →
    Except String (List Value)
  | 0, _, _, _, _, _ => .error "evaluator recursion depth exceeded"
  | _ + 1, _, [], _, _, _ => pure []
  | fuel + 1, expression, x :: rest, i, ctx, strict => do
    let scopedCtx := objSet (objSet ctx "value" x) "index" (vNum (jint i))
    let keep := toBoolean (← evaluateAstGo fuel expression scopedCtx strict)
    let tail ← filterLoop fuel expression rest (i + 1) ctx strict
    pure (if keep then x :: tail else tail)
termination_by structural fuel => fuel

def mapLoop : Nat → Node → List Value → Nat → Ctx → Bool →
    Except String (List Value)
  | 0, _, _, _, _, _ => .error "evaluator recursion depth exceeded"
  | _ + 1, _, [], _, _, _ => pure []
  | fuel + 1, expression, x :: rest, i, ctx, strict => do
    let scopedCtx := objSet (objSet ctx "value" x) "index" (vNum (jint i))
    let v ← evaluateAstGo fuel expression scopedCtx strict
    let tail ← mapLoop fuel expression rest (i + 1) ctx strict
    pure (v :: tail)
termination_by structural fuel => fuel

def reduceLoop : Nat → Node → List Value → Nat → Value → Ctx → Bool →
    Except String Value
  | 0, _, _, _, _, _, _ => .error "evaluator recursion depth exceeded"
  | _ + 1, _, [], _, acc, _, _ => pure acc
  | fuel + 1, expression, x :: rest, i, acc, ctx, strict => do
    let scopedCtx := objSet (objSet (objSet ctx "value" x) "index" (vNum (jint i))) "acc" acc
    let next ← evaluateAstGo fuel expression scopedCtx strict
    reduceLoop fuel expression rest (i + 1) next ctx strict
termination_by structural fuel => fuel

end

/-- `evaluateAst` at the top-level fuel. -/
def evaluateAst (node : Node) (ctx : Ctx) (strict : Bool) : Except String Value :=
  evaluateAstGo 1000000 node ctx strict

/-- `evaluateExpression`: parse then evaluate. -/
def evaluateExpression (source : String) (ctx : Ctx) (strict : Bool) :
    Except String Value := do
  let ast ← parseExpression source
  evaluateAst ast ctx strict

example : evaluateExpression "1 + 2 * 3" [] true = .ok (vNum (jint 7)) := by rfl

example : evaluateExpression "0 and 1" [] true = .ok (vBool false) := by rfl

example : evaluateExpression "missing" [("note", vObj [])] true = .ok vUndef := by rfl

/-! ### Query specification data model (types.ts with the schema's view shape) -/

def assocGet (xs : List (String × α)) (k : String) : Option α :=
  (xs.find? (fun p => p.1 = k)).map (fun p => p.2)

inductive FilterSpec where
  | fstr (s : String)
  | ftree (andL : Option (List FilterSpec)) (orL : Option (List FilterSpec))
      (notF : Option FilterSpec)

structure SortSpec where
  sortBy : String
  direction : String
deriving Repr

inductive GroupBySpec where
  | gstr (s : String)
  | gobj (property : String) (direction : String)

structure ViewSpec where
  type : String
  name : String
  filters : Option FilterSpec
  sort : Option (List SortSpec)
  order : Option (List String)
  groupBy : Option GroupBySpec
  limit : Option Nat
  summaries : Option (List (String × String))
  properties : Option (List String)

structure QuerySpec where
  filters : Option FilterSpec
  formulas : Option (List (String × String))
  properties : Option (List String)
  summaries : Option (List (String × String))
  views : List ViewSpec

structure FileRec where
  name : String
  path : String
  folder : String
  ext : String
  size : JNum
  ctime : Int
  mtime : Int
  tags : List String
  links : List String
  raw : String

def fileToValue (f : FileRec) : Value :=
  vObj [("name", vStr f.name), ("path", vStr f.path), ("folder", vStr f.folder),
    ("ext", vStr f.ext), ("size", vNum f.size), ("ctime", vDate f.ctime),
    ("mtime", vDate f.mtime), ("tags", vList (f.tags.map vStr)),
    ("links", vList (f.links.map vStr)), ("raw", vStr f.raw)]

structure IndexedDoc where
  note : List (String × Value)
  file : FileRec

structure QueryRow where
  note : List (String × Value)
  file : FileRec
  formula : List (String × Value)
  thisObj : List (String × Value)
  projected : List (String × Value)

/-- The row context as a JS object, in creation order. -/
def rowCtx (row : QueryRow) : Ctx :=
  [("note", vObj row.note), ("file", fileToValue row.file),
   ("formula", vObj row.formula), ("this", vObj row.thisObj),
   ("projected", vObj row.projected)]

/-- `withEvalContext`: the row spread plus `filesByPath`. -/
def withEvalContext (row : QueryRow) (fbp : List (String × Value)) : Ctx :=
  rowCtx row ++ [("filesByPath", vObj fbp)]

structure QueryDiagnostics where
  errors : List String
  warnings : List String

structure QueryStats where
  scannedFiles : Nat
  markdownFiles : Nat
  matchedRows : Nat
  elapsedMs : Nat

structure QueryGroup where
  key : Value
  rows : List QueryRow

structure QueryResult where
  rows : List QueryRow
  columns : List String
  groups : Option (List QueryGroup)
  summaries : Option (List (String × Value))
  stats : QueryStats
  diagnostics : QueryDiagnostics

/-! ### Query compiler (query-engine.ts) -/

inductive CompiledFilter where
  | expr (expression : Node)
  | tree (andL : Option (List CompiledFilter)) (orL : Option (List CompiledFilter))
      (notF : Option CompiledFilter)

structure CompiledQuery where
  spec : QuerySpec
  strict : Bool
  globalFilter : Option CompiledFilter
  viewFilters : List (String × Option CompiledFilter)
  formulas : List (String × Node)
  formulaOrder : List String
  summaryFormulas : List (String × Node)

/-- The dotted-identifier pattern `^[A-Za-z_][A-Za-z0-9_]*(\.[A-Za-z_][A-Za-z0-9_]*)*$`. -/
def dottedIdentTest (s : String) : Bool :=
  let parts := jsStrSplit s "."
  !parts.isEmpty && parts.all (fun p =>
    match p.toList with
    | [] => false
    | c :: rest =>
      (isAsciiLetter c || c = '_') &&
        rest.all (fun ch => isAsciiLetter ch || isDigitChar ch || ch = '_'))

/-- `evaluatePropertyRef`: a column that is NOT a plain dotted identifier but
exists verbatim as a front-matter key is read directly from the note;
everything else is parsed and evaluated as an expression against the row. -/
def evaluatePropertyRef (property : String) (row : QueryRow) (strict : Bool)
    (fbp : List (String × Value)) : Except String Value :=
  if !dottedIdentTest property && objHasOwn row.note property then
    .ok ((objGet row.note property).getD vUndef)
  else evaluateExpression property (withEvalContext row fbp) strict

/-- `toComparable`: Date instant, number, boolean as 0/1, nullish as the
empty string, everything else its JS string coercion. -/
inductive Comparable where
  | cnum (q : JNum)
  | cstr (s : String)
deriving DecidableEq, Repr

def toComparable : Value → Comparable
  | vDate t => .cnum (jint t)
  | vNum q => .cnum q
  | vBool b => .cnum (jint (if b then 1 else 0))
  | vNull => .cstr ""
  | vUndef => .cstr ""
  | v => .cstr (jsStringCoerce v)

/-- JS `<` over the comparable projection (a string operand against a number
coerces to a number; a NaN coercion makes both `<` and `>` false). -/
def compLt : Comparable → Comparable → Bool
  | .cnum a, .cnum b => jnumLt a b
  | .cstr a, .cstr b => strLt a b
  | .cnum a, .cstr s =>
    (match jsStringToNumber s with
     | some b => jnumLt a b
     | none => false)
  | .cstr s, .cnum b =>
    (match jsStringToNumber s with
     | some a => jnumLt a b
     | none => false)

def compGt (a b : Comparable) : Bool := compLt b a

/-- `discoverFormulaDeps`: the `\bformula\.([A-Za-z_][A-Za-z0-9_]*)\b` global
scan, deduplicated in first-occurrence order. -/
def discoverDepsGo : Nat → List Char → Bool → List String → List String
  | 0, _, _, acc => acc
  | fuel + 1, s, prevWord, acc =>
    match s with
    | [] => acc
    | c :: rest =>
      if !prevWord && listIsPrefixOf "formula.".toList s then
        let afterDot := s.drop 8
        match afterDot with
        | a :: identRest =>
          if isAsciiLetter a || a = '_' then
            let identTail := identRest.takeWhile isWordChar
            let dep := String.mk (a :: identTail)
            let acc' := if acc.any (fun d => d = dep) then acc else acc ++ [dep]
            discoverDepsGo fuel (afterDot.drop (1 + identTail.length)) true acc'
          else discoverDepsGo fuel rest (isWordChar c) acc
        | [] => discoverDepsGo fuel rest (isWordChar c) acc
      else discoverDepsGo fuel rest (isWordChar c) acc
termination_by structural fuel => fuel

def discoverFormulaDeps (expression : String) : List String :=
  discoverDepsGo (expression.length + 1) expression.toList false []

mutual

/-- The recursive `visit` of `topoSort`: a currently-visiting marker list, a
done list and the output order; revisiting a currently-visiting node raises
the cycle error naming that formula. -/
def topoVisit : Nat → List (String × List String) → String → List String →
    List String → List String → Except String (List String × List String)
  | 0, _, _, _, _, _ => .error "topological sort depth exceeded"
  | fuel + 1, deps, node, temp, visited, output =>
    if visited.any (fun v => v = node) then .ok (visited, output)
    else if temp.any (fun v => v = node) then
      .error ("formula cycle detected at " ++ node)
    else do
      let (v2, o2) ← topoVisitList fuel deps ((assocGet deps node).getD [])
        (temp ++ [node]) visited output
      pure (v2 ++ [node], o2 ++ [node])
termination_by structural fuel => fuel

def topoVisitList : Nat → List (String × List String) → List String →
    List String → List String → List String → Except String (List String × List String)
  | 0, _, _, _, _, _ => .error "topological sort depth exceeded"
  | _ + 1, _, [], _, visited, output => .ok (visited, output)
  | fuel + 1, deps, d :: rest, temp, visited, output => do
    let (v2, o2) ← topoVisit fuel deps d temp visited output
    topoVisitList fuel deps rest temp v2 o2
termination_by structural fuel => fuel

end

/-- `topoSort`: keys seeded in locale order, dependency edges only between
declared formulas, depth-first emission. -/
def topoSort (formulas : List (String × String)) : Except String (List String) := do
  let keys := sortByCmp (fun a b => localeCompare a b) (formulas.map (fun f => f.1))
  let deps := keys.map (fun k =>
    (k, (discoverFormulaDeps ((assocGet formulas k).getD "")).filter
      (fun d => formulas.any (fun f => f.1 = d))))
  let fuel := (formulas.length + 2) * (formulas.length + 2)
  let (_, output) ← topoVisitList fuel deps keys [] [] []
  pure output

mutual

/-- `compileFilter` (fuel bounds only the nesting depth of filter trees). -/
def compileFilterGo : Nat → FilterSpec → Except String CompiledFilter
  | 0, _ => .error "filter nesting depth exceeded"
  | _ + 1, .fstr s => do pure (.expr (← compileExpression s))
  | fuel + 1, .ftree andL orL notF => do
    let a ← match andL with
      | none => pure none
      | some entries => do pure (some (← compileFilterListGo fuel entries))
    let o ← match orL with
      | none => pure none
      | some entries => do pure (some (← compileFilterListGo fuel entries))
    let n ← match notF with
      | none => pure none
      | some f => do pure (some (← compileFilterGo fuel f))
    pure (.tree a o n)
termination_by structural fuel => fuel

def compileFilterListGo : Nat → List FilterSpec → Except String (List CompiledFilter)
  | 0, _ => .error "filter nesting depth exceeded"
  | _ + 1, [] => pure []
  | fuel + 1, f :: rest => do
    let c ← compileFilterGo fuel f
    let cs ← compileFilterListGo fuel rest
    pure (c :: cs)
termination_by structural fuel => fuel

end

def compileFilter : Option FilterSpec → Except String (Option CompiledFilter)
  | none => pure none
  | some f => do pure (some (← compileFilterGo 1000 f))

/-- `compileQuery` with the source's error precedence: formula cycle first,
then formula parses, view filters, summaries, and the global filter. -/
def compileQuery (spec : QuerySpec) (strictOption : Option Bool) :
    Except String CompiledQuery := do
  let strict := strictOption.getD true
  let formulas := spec.formulas.getD []
  let formulaOrder ← topoSort formulas
  let compiledFormulas ← formulas.mapM (fun f => do
    pure (f.1, ← compileExpression f.2))
  let viewFilters ← spec.views.mapM (fun v => do
    pure (v.name, ← compileFilter v.filters))
  let summaryFormulas ← (spec.summaries.getD []).mapM (fun f => do
    pure (f.1, ← compileExpression f.2))
  let globalFilter ← compileFilter spec.filters
  pure ⟨spec, strict, globalFilter, viewFilters, compiledFormulas, formulaOrder,
    summaryFormulas⟩

/-! ### Query executor (query-engine.ts) -/

/-- `getView`; an empty view list would be a JS TypeError at `views[0]`. -/
def getView (spec : QuerySpec) (requestedName : Option String) :
    Except String ViewSpec :=
  match requestedName with
  | none =>
    (match spec.views.head? with
     | some v => .ok v
     | none => .error "TypeError: cannot read properties of undefined")
  | some nm =>
    match spec.views.find? (fun v => v.name = nm) with
    | some v => .ok v
    | none => .error ("view not found: " ++ nm)

mutual

/-- `evaluateFilter`: absent passes; an expression leaf is truthiness-tested;
`and` requires all, a non-empty `or` requires one, `not` negates. -/
def evaluateFilter : Nat → Option CompiledFilter → QueryRow → Bool →
    List (String × Value) → Except String Bool
  | 0, _, _, _, _ => .error "filter nesting depth exceeded"
  | _ + 1, none, _, _, _ => pure true
  | fuel + 1, some filter, row, strict, fbp =>
    match filter with
    | .expr expression => do
      let result ← evaluateAst expression (withEvalContext row fbp) strict
      pure (toBoolean result)
    | .tree andL orL notF => do
      let andPass ← match andL with
        | none => pure true
        | some entries => filterAll fuel entries row strict fbp
      if !andPass then pure false
      else do
        let orPass ← match orL with
          | none => pure true
          | some [] => pure true
          | some entries => filterAny fuel entries row strict fbp
        if !orPass then pure false
        else do
          let notHit ← match notF with
            | none => pure false
            | some f => evaluateFilter fuel (some f) row strict fbp
          pure (!notHit)
termination_by structural fuel => fuel

def filterAll : Nat → List CompiledFilter → QueryRow → Bool →
    List (String × Value) → Except String Bool
  | 0, _, _, _, _ => .error "filter nesting depth exceeded"
  | _ + 1, [], _, _, _ => pure true
  | fuel + 1, f :: rest, row, strict, fbp => do
    let h ← evaluateFilter fuel (some f) row strict fbp
    if h then filterAll fuel rest row strict fbp else pure false
termination_by structural fuel => fuel

def filterAny : Nat → List CompiledFilter → QueryRow → Bool →
    List (String × Value) → Except String Bool
  | 0, _, _, _, _ => .error "filter nesting depth exceeded"
  | _ + 1, [], _, _, _ => pure false
  | fuel + 1, f :: rest, row, strict, fbp => do
    let h ← evaluateFilter fuel (some f) row strict fbp
    if h then pure true else filterAny fuel rest row strict fbp
termination_by structural fuel => fuel

end

/-- `evaluateFormulas`: writes each formula into the row's `formula` map in
compiled order; later formulas see earlier results through the row context. -/
def evaluateFormulas (order : List String) (row : QueryRow)
    (formulas : List (String × Node)) (strict : Bool)
    (fbp : List (String × Value)) : Except String QueryRow :=
  order.foldlM (fun row name =>
    match assocGet formulas name with
    | none => pure row
    | some ast => do
      let v ← evaluateAst ast (withEvalContext row fbp) strict
      pure { row with formula := objSet row.formula name v }) row

/-- The per-document phase of the executor loop: build the row context,
evaluate formulas, test the global then the view filter. -/
def processDoc (compiled : CompiledQuery) (view : ViewSpec)
    (fbp : List (String × Value)) (doc : IndexedDoc) :
    Except String (Option QueryRow) := do
  let row : QueryRow :=
    { note := doc.note, file := doc.file, formula := [],
      thisObj := [("filePath", vStr doc.file.path), ("name", vStr doc.file.name)],
      projected := [] }
  let row ← evaluateFormulas compiled.formulaOrder row compiled.formulas
    compiled.strict fbp
  let globalPass ← evaluateFilter 1000 compiled.globalFilter row compiled.strict fbp
  if !globalPass then pure none
  else do
    let viewFilter := (assocGet compiled.viewFilters view.name).getD none
    let viewPass ← evaluateFilter 1000 viewFilter row compiled.strict fbp
    if !viewPass then pure none
    else pure (some row)

/-- The document loop: a throwing document contributes exactly the diagnostic
`"row <path>: <message>"` and no row; the loop never aborts. -/
def rowPhase (compiled : CompiledQuery) (view : ViewSpec)
    (fbp : List (String × Value)) (docs : List IndexedDoc) :
    List QueryRow × List String :=
  docs.foldl (fun acc doc =>
    match processDoc compiled view fbp doc with
    | .ok (some row) => (acc.1 ++ [row], acc.2)
    | .ok none => acc
    | .error e => (acc.1, acc.2 ++ ["row " ++ doc.file.path ++ ": " ++ e])) ([], [])

/-- The sort comparator of `stableSort`: each declared key in order (via
`evaluatePropertyRef` and `toComparable`, honoring the direction), then the
fixed document-path tie-break. -/
def sortCmpRow (order : List SortSpec) (strict : Bool)
    (fbp : List (String × Value)) (l r : QueryRow) : Except String JNum :=
  match order with
  | [] => pure (jint (localeCompare l.file.path r.file.path))
  | spec :: rest => do
    let lv := toComparable (← evaluatePropertyRef spec.sortBy l strict fbp)
    let rv := toComparable (← evaluatePropertyRef spec.sortBy r strict fbp)
    if compLt lv rv then pure (jint (if spec.direction = "desc" then 1 else -1))
    else if compGt lv rv then pure (jint (if spec.direction = "desc" then -1 else 1))
    else sortCmpRow rest strict fbp l r

/-- `stableSort` (a stable sort by the comparator, as `Array.prototype.sort`
guarantees). -/
def stableSort (rows : List QueryRow) (view : ViewSpec) (strict : Bool)
    (fbp : List (String × Value)) : Except String (List QueryRow) :=
  sortByCmpM (sortCmpRow (view.sort.getD []) strict fbp) rows

/-- `applyLimit`: `slice(0, limit)` when a limit is declared. -/
def applyLimit (rows : List QueryRow) (view : ViewSpec) : List QueryRow :=
  match view.limit with
  | none => rows
  | some n => rows.take n

/-- `inferColumns`: the fixed leading `file.name`, the union of note keys
over the rows in path order, the declared formula columns in locale order,
and `file.path` only when nothing else was found. -/
def inferColumns (rows : List QueryRow) (compiled : CompiledQuery) : List String :=
  let stableRows := sortByCmp (fun a b => localeCompare a.file.path b.file.path) rows
  let afterNotes := stableRows.foldl (fun cols row =>
    row.note.foldl (fun cols kv =>
      if cols.any (fun c => c = kv.1) then cols else cols ++ [kv.1]) cols) ["file.name"]
  let formulaNames := sortByCmp (fun a b => localeCompare a b)
    ((compiled.spec.formulas.getD []).map (fun f => f.1))
  let afterFormulas := formulaNames.foldl (fun cols n =>
    let key := "formula." ++ n
    if cols.any (fun c => c = key) then cols else cols ++ [key]) afterNotes
  if afterFormulas.length = 1 then afterFormulas ++ ["file.path"] else afterFormulas

/-- `projectRow`: every column through `evaluatePropertyRef`. -/
def projectRow (row : QueryRow) (columns : List String) (strict : Bool)
    (fbp : List (String × Value)) : Except String (List (String × Value)) :=
  columns.foldlM (fun output column => do
    let v ← evaluatePropertyRef column row strict fbp
    pure (objSet output column v)) []

/-- `JSON.stringify` as a Map key: `undefined` is the distinguished non-string
key. -/
def jsonKey : Value → Option String
  | vUndef => none
  | v => some (jsonValue v)

/-- `groupRows`: buckets by the serialized key in first-occurrence order,
then sorts buckets by the locale order of the coerced key, reversing for a
descending direction. -/
def groupRows (rows : List QueryRow) (view : ViewSpec) (strict : Bool)
    (fbp : List (String × Value)) : Except String (Option (List QueryGroup)) := do
  match view.groupBy with
  | none => pure none
  | some gb => do
    let groupProperty := match gb with
      | .gstr s => s
      | .gobj p _ => p
    let groupDirection := match gb with
      | .gstr _ => "asc"
      | .gobj _ d => d
    let buckets ← rows.foldlM
      (fun (buckets : List (Option String × QueryGroup)) row => do
        let key ← evaluatePropertyRef groupProperty row strict fbp
        let mapKey := jsonKey key
        match buckets.find? (fun b => b.1 = mapKey) with
        | some _ =>
          pure (buckets.map (fun b =>
            if b.1 = mapKey then (b.1, ⟨b.2.key, b.2.rows ++ [row]⟩) else b))
        | none => pure (buckets ++ [(mapKey, ⟨key, [row]⟩)])) []
    let sorted := sortByCmp
      (fun (a b : QueryGroup) => localeCompare (jsStringCoerce a.key) (jsStringCoerce b.key))
      (buckets.map (fun b => b.2))
    pure (some (if groupDirection = "desc" then sorted.reverse else sorted))

def toSummaryName (name : String) : String :=
  strToLower (jsTrim name)

def BUILTIN_SUMMARIES : List String :=
  ["count", "sum", "avg", "min", "max", "average", "median", "stddev",
   "earliest", "latest", "range", "checked", "unchecked", "empty", "filled",
   "unique"]

def isTrueV : Value → Bool
  | vBool true => true
  | _ => false

def isFalseV : Value → Bool
  | vBool false => true
  | _ => false

def isEmptyStrV : Value → Bool
  | vStr s => s = ""
  | _ => false

def isDateList (values : List Value) : Bool :=
  !values.isEmpty && values.all (fun v => match v with
    | vDate _ => true
    | _ => false)

/-- Raw JS `Number(entry)` for summary aggregation (`none` = non-finite). -/
def jsNumberCoerceValue : Value → Option JNum
  | vNum q => some q
  | vBool b => some (jint (if b then 1 else 0))
  | vNull => some (jint 0)
  | vUndef => none
  | vDate t => some (jint t)
  | v => jsStringToNumber (jsStringCoerce v)

/-- `toNumberList`: Dates as instants, everything else `Number(...)`,
non-finite entries dropped. -/
def toNumberList (values : List Value) : List JNum :=
  values.filterMap (fun v =>
    match v with
    | vDate t => some (jint t)
    | _ => jsNumberCoerceValue v)

def jnumListSum (xs : List JNum) : JNum := xs.foldl jnumAdd (jint 0)

def jnumListMax (xs : List JNum) (seed : JNum) : JNum :=
  xs.foldl (fun a b => if jnumLt a b then b else a) seed

def jnumListMin (xs : List JNum) (seed : JNum) : JNum :=
  xs.foldl (fun a b => if jnumLt b a then b else a) seed

/-- Rational square root approximation for `stddev` (exact on perfect
squares; `Math.sqrt` itself is a modelling boundary no claim depends on). -/
def jnumSqrtApprox (q : JNum) : JNum :=
  ⟨Int.ofNat (Nat.sqrt (q.num * q.den).toNat), q.den⟩

def evalBuiltinSummary (name : String) (values : List Value) : Value :=
  match toSummaryName name with
  | "count" => vNum (jint values.length)
  | "sum" => vNum (jnumListSum (toNumberList values))
  | "avg" =>
    (match toNumberList values with
     | [] => vNum (jint 0)
     | numbers => vNum (jnumDiv (jnumListSum numbers) (jint numbers.length)))
  | "average" =>
    (match toNumberList values with
     | [] => vNum (jint 0)
     | numbers => vNum (jnumDiv (jnumListSum numbers) (jint numbers.length)))
  | "min" =>
    (match toNumberList values with
     | [] => vNull
     | n :: rest => vNum (jnumListMin rest n))
  | "max" =>
    (match toNumberList values with
     | [] => vNull
     | n :: rest => vNum (jnumListMax rest n))
  | "range" =>
    if isDateList values then
      (match toNumberList values with
       | [] => vNull
       | n :: rest => vNum (jnumSub (jnumListMax rest n) (jnumListMin rest n)))
    else
      (match toNumberList values with
       | [] => vNull
       | n :: rest => vNum (jnumSub (jnumListMax rest n) (jnumListMin rest n)))
  | "median" =>
    let numbers := sortByCmp (fun a b => jnumSign (jnumSub a b)) (toNumberList values)
    (match numbers with
     | [] => vNull
     | _ =>
       let middle := numbers.length / 2
       if numbers.length % 2 = 0 then
         vNum (jnumDiv (jnumAdd ((numbers.get? (middle - 1)).getD (jint 0))
           ((numbers.get? middle).getD (jint 0))) (jint 2))
       else vNum ((numbers.get? middle).getD (jint 0)))
  | "stddev" =>
    (match toNumberList values with
     | [] => vNull
     | numbers =>
       let mean := jnumDiv (jnumListSum numbers) (jint numbers.length)
       let variance := jnumDiv
         (jnumListSum (numbers.map (fun n => jnumMul (jnumSub n mean) (jnumSub n mean))))
         (jint numbers.length)
       vNum (jnumSqrtApprox variance))
  | "earliest" =>
    if !isDateList values || values.isEmpty then vNull
    else
      (match toNumberList values with
       | [] => vNull
       | n :: rest => vDate (jnumTrunc (jnumListMin rest n)))
  | "latest" =>
    if !isDateList values || values.isEmpty then vNull
    else
      (match toNumberList values with
       | [] => vNull
       | n :: rest => vDate (jnumTrunc (jnumListMax rest n)))
  | "checked" => vNum (jint (values.filter isTrueV).length)
  | "unchecked" => vNum (jint (values.filter isFalseV).length)
  | "empty" =>
    vNum (jint (values.filter (fun v => isNullish v || isEmptyStrV v)).length)
  | "filled" =>
    vNum (jint (values.filter (fun v => !(isNullish v || isEmptyStrV v))).length)
  | "unique" =>
    vNum (jint ((values.map jsonKey).foldl (fun (seen : List (Option String)) k =>
      if seen.any (fun s => s = k) then seen else seen ++ [k]) []).length)
  | _ => vNull

/-- `computeSummaries`: per-column aggregation of projected values; builtin
names apply directly, otherwise the named summary expression runs with
`values` bound; an unresolved name yields null. -/
def computeSummaries (rows : List QueryRow) (spec : QuerySpec) (view : ViewSpec)
    (compiled : CompiledQuery) : Except String (Option (List (String × Value))) := do
  match view.summaries with
  | none => pure none
  | some [] => pure none
  | some summaryMap => do
    let output ← summaryMap.foldlM (fun (output : List (String × Value)) entry => do
      let column := entry.1
      let summaryName := entry.2
      let values := rows.map (fun row => (objGet row.projected column).getD vUndef)
      if BUILTIN_SUMMARIES.any (fun b => b = toSummaryName summaryName) then
        pure (objSet output column (evalBuiltinSummary summaryName values))
      else do
        let summaryExpression ← match assocGet compiled.summaryFormulas summaryName with
          | some e => pure (some e)
          | none =>
            match (spec.summaries.getD []).find? (fun s => s.1 = summaryName) with
            | some s => do pure (some (← compileExpression s.2))
            | none => pure none
        match summaryExpression with
        | none => pure (objSet output column vNull)
        | some e => do
          let v ← evaluateAst e [("values", vList values)] compiled.strict
          pure (objSet output column v)) []
    pure (some output)

/-- `executeCompiledQuery`.  Wall-clock statistics are environmental and
fixed to 0 in the embedding. -/
def executeCompiledQuery (compiled : CompiledQuery) (viewName : Option String)
    (docs : List IndexedDoc) (diagnostics : QueryDiagnostics) :
    Except String QueryResult := do
  let view ← getView compiled.spec viewName
  let fbp := docs.foldl (fun m d => objSet m d.file.path (fileToValue d.file)) []
  let (rows, rowErrors) := rowPhase compiled view fbp docs
  let diagnostics2 : QueryDiagnostics :=
    { diagnostics with errors := diagnostics.errors ++ rowErrors }
  let sorted ← stableSort rows view compiled.strict fbp
  let limited := applyLimit sorted view
  let columns :=
    ((match view.order with
      | some os => if os.length > 0 then some os else none
      | none => none)).getD
    ((view.properties).getD
      ((compiled.spec.properties).getD (inferColumns limited compiled)))
  let limited2 ← limited.mapM (fun row => do
    pure { row with projected := ← projectRow row columns compiled.strict fbp })
  let groups ← groupRows limited2 view compiled.strict fbp
  let summaries ← computeSummaries limited2 compiled.spec view compiled
  pure {
    rows := limited2,
    columns := columns,
    groups := groups,
    summaries := summaries,
    stats := {
      scannedFiles := docs.length,
      markdownFiles := docs.length,
      matchedRows := limited2.length,
      elapsedMs := 0 },
    diagnostics := diagnostics2 }

/-! ### Fixtures for the claim theorems -/

def mkFile (path : String) : FileRec :=
  { name := basenameOfNormalized path, path := path, folder := "", ext := ".md",
    size := jint 0, ctime := 0, mtime := 0, tags := [], links := [], raw := "" }

def mkRow (path : String) (note : List (String × Value)) : QueryRow :=
  { note := note, file := mkFile path, formula := [],
    thisObj := [("filePath", vStr path), ("name", vStr (basenameOfNormalized path))],
    projected := [] }

def viewPlain : ViewSpec :=
  { type := "table", name := "main", filters := none, sort := none, order := none,
    groupBy := none, limit := none, summaries := none, properties := none }

/-- A row whose front-matter holds a literal dotted key, a literal spaced
key, and a plain identifier key. -/
def rowC1 : QueryRow :=
  mkRow "n.md" [("a.b", vNum (jint 42)), ("My Key", vNum (jint 7)), ("score", vNum (jint 5))]

def specCycle : QuerySpec :=
  { filters := none, formulas := some [("a", "formula.b + 1"), ("b", "formula.a + 1")],
    properties := none, summaries := none, views := [viewPlain] }

def specAcyclic : QuerySpec :=
  { filters := none, formulas := some [("a", "formula.b + 1"), ("b", "1")],
    properties := none, summaries := none, views := [viewPlain] }

/-- A spec whose formula merely references an unknown identifier. -/
def specC5 : QuerySpec :=
  { filters := none, formulas := some [("f", "missing")], properties := none,
    summaries := none, views := [viewPlain] }

def docsC5 : List IndexedDoc := [⟨[], mkFile "a.md"⟩]

/-- A spec whose formula performs a member access on an identifier: it
throws exactly for the document lacking the `missing` front-matter key. -/
def specC5b : QuerySpec :=
  { filters := none, formulas := some [("bad", "missing.x")], properties := none,
    summaries := none, views := [viewPlain] }

def docsC5b : List IndexedDoc :=
  [⟨[("missing", vObj [("x", vNum (jint 1))])], mkFile "good.md"⟩,
   ⟨[], mkFile "bad.md"⟩]

def view6 : ViewSpec :=
  { viewPlain with sort := some [⟨"score", "desc"⟩, ⟨"name", "asc"⟩], limit := some 2 }

def rowD6 : QueryRow := mkRow "d.md" [("score", vNum (jint 3)), ("name", vStr "D")]
def rowB6 : QueryRow := mkRow "b.md" [("score", vNum (jint 7)), ("name", vStr "B")]
def rowC6 : QueryRow := mkRow "c.md" [("score", vNum (jint 7)), ("name", vStr "C")]
def rowA6 : QueryRow := mkRow "a.md" [("score", vNum (jint 1)), ("name", vStr "A")]

def rows6 : List QueryRow := [rowD6, rowB6, rowC6, rowA6]

def specC8 : QuerySpec :=
  { filters := none, formulas := some [("x", "1")], properties := none,
    summaries := none, views := [viewPlain] }

def specC8b : QuerySpec :=
  { filters := none, formulas := some [("y", "1")], properties := none,
    summaries := none, views := [viewPlain] }

def docsC8b : List IndexedDoc :=
  [⟨[("title", vStr "T"), ("score", vNum (jint 1))], mkFile "a.md"⟩,
   ⟨[("score", vNum (jint 2)), ("extra", vStr "E")], mkFile "b.md"⟩]

def specC8c : QuerySpec :=
  { filters := none, formulas := none, properties := none, summaries := none,
    views := [viewPlain] }

def viewC8d : ViewSpec :=
  { viewPlain with order := some ["title", "status"], properties := some ["only-props"] }

def specC8d : QuerySpec :=
  { filters := none, formulas := none, properties := some ["p1"], summaries := none,
    views := [viewC8d] }

def specC8e : QuerySpec :=
  { filters := none, formulas := none, properties := some ["p1"], summaries := none,
    views := [viewPlain] }

/-- Runs compile-then-execute with fresh diagnostics. -/
def runQuery (spec : QuerySpec) (docs : List IndexedDoc) :
    Except String QueryResult := do
  let compiled ← compileQuery spec none
  executeCompiledQuery compiled none docs ⟨[], []⟩

/-- The surviving row contributed by a document, when there is one. -/
def passedRow (compiled : CompiledQuery) (view : ViewSpec)
    (fbp : List (String × Value)) (doc : IndexedDoc) : Option QueryRow :=
  match processDoc compiled view fbp doc with
  | .ok (some row) => some row
  | _ => none

/-- The diagnostic contributed by a document, when its row phase throws. -/
def rowDiag (compiled : CompiledQuery) (view : ViewSpec)
    (fbp : List (String × Value)) (doc : IndexedDoc) : Option String :=
  match processDoc compiled view fbp doc with
  | .error e => some ("row " ++ doc.file.path ++ ": " ++ e)
  | _ => none

/-- The executor's document loop is exactly: the surviving rows of the
non-throwing documents in order, and one tagged diagnostic per throwing
document in order — independent of every other document. -/
theorem rowPhase_spec (compiled : CompiledQuery) (view : ViewSpec)
    (fbp : List (String × Value)) (docs : List IndexedDoc) :
    rowPhase compiled view fbp docs =
      (docs.filterMap (passedRow compiled view fbp),
       docs.filterMap (rowDiag compiled view fbp)) := by
  have aux : ∀ (ds : List IndexedDoc) (r0 : List QueryRow) (e0 : List String),
      ds.foldl (fun acc doc =>
        match processDoc compiled view fbp doc with
        | .ok (some row) => (acc.1 ++ [row], acc.2)
        | .ok none => acc
        | .error e => (acc.1, acc.2 ++ ["row " ++ doc.file.path ++ ": " ++ e])) (r0, e0) =
      (r0 ++ ds.filterMap (passedRow compiled view fbp),
       e0 ++ ds.filterMap (rowDiag compiled view fbp)) := by
    intro ds
    induction ds with
    | nil => intro r0 e0; simp
    | cons d rest ih =>
      intro r0 e0
      simp only [List.foldl_cons, List.filterMap_cons]
      cases h : processDoc compiled view fbp d with
      | error e =>
        simp [h, ih, passedRow, rowDiag]
      | ok oRow =>
        cases oRow with
        | none => simp [h, ih, passedRow, rowDiag]
        | some row => simp [h, ih, passedRow, rowDiag]
  simpa using aux docs [] []

/-! ### The claims -/

/-- C1 (counterexample): the claim says a plain dotted identifier existing
verbatim as a literal front-matter key is read directly without expression
parsing.  On the code, a dotted identifier is always parsed: with front
matter `{"a.b": 42}` the column `a.b` evaluates as the member access `a.b`
and yields the absent value (non-strict) or a member-access error (strict) —
never the directly-read 42. -/
theorem c1_counterexample :
    evaluatePropertyRef "a.b" rowC1 false [] = .ok vUndef ∧
    vUndef ≠ vNum (jint 42) ∧
    evaluatePropertyRef "a.b" rowC1 true [] =
      .error "cannot access property b on nullish value" := by
  refine ⟨rfl, ?_, rfl⟩
  intro h
  exact Value.noConfusion h

/-- C1 (amended): a column name that is NOT a plain dotted identifier and
exists verbatim as a literal front-matter key is read directly with no
expression parsing (parsing `My Key` would be a syntax error, yet the read
succeeds); every other column name — including every plain dotted
identifier — is parsed and evaluated as an expression against the row. -/
theorem c1_amended :
    evaluatePropertyRef "My Key" rowC1 true [] = .ok (vNum (jint 7)) ∧
    evaluateExpression "My Key" (withEvalContext rowC1 []) true =
      .error (synErr ("unexpected token " ++ jsonQuote "Key") 3) ∧
    evaluatePropertyRef "a.b" rowC1 false [] = .ok vUndef ∧
    evaluatePropertyRef "score" rowC1 true [] = .ok (vNum (jint 5)) ∧
    evaluatePropertyRef "1 + 1" rowC1 true [] = .ok (vNum (jint 2)) := by
  exact ⟨rfl, rfl, rfl, rfl, rfl⟩

/-- C2 (counterexample): the claim says a strict-mode identifier that
resolves neither to an own context field nor to a note field raises.  On the
code, whenever a (truthy) `note` map is present the lookup returns its
(absent) member without any error, even in strict mode. -/
theorem c2_counterexample :
    evaluateExpression "missing" [("note", vObj [])] true = .ok vUndef := by
  rfl

/-- C2 (amended): strict mode raises for an unresolved identifier only when
the context has no truthy `note` map; with a note map present the identifier
yields the note lookup (absent when missing) without error.  The two
particular examples of the claim hold: `missing + 1` on the empty context
raises in strict mode, and `missing` yields absent in non-strict mode.  Own
context fields take precedence over note fields. -/
theorem c2_amended :
    evaluateExpression "missing + 1" [] true = .error "unknown identifier: missing" ∧
    evaluateExpression "missing" [] false = .ok vUndef ∧
    evaluateExpression "missing" [("note", vObj [])] true = .ok vUndef ∧
    evaluateExpression "missing" [("note", vObj [("missing", vNum (jint 5))])] true =
      .ok (vNum (jint 5)) ∧
    evaluateExpression "value" [("value", vNum (jint 1)),
      ("note", vObj [("value", vNum (jint 2))])] true = .ok (vNum (jint 1)) := by
  exact ⟨rfl, rfl, rfl, rfl, rfl⟩

/-- C3 (counterexample): the claim says the result of `and`/`or` is the
actual operand value, with a falsy left making `a and b` yield the value of
`a` and a truthy left making `a or b` yield the value of `a`.  On the code
the deciding side is forced to a boolean: `0 and 1` yields false (not the
number 0) and `5 or 2` yields true (not the number 5). -/
theorem c3_counterexample :
    evaluateExpression "0 and 1" [] true = .ok (vBool false) ∧
    vBool false ≠ vNum (jint 0) ∧
    evaluateExpression "5 or 2" [] true = .ok (vBool true) ∧
    vBool true ≠ vNum (jint 5) := by
  refine ⟨rfl, ?_, rfl, ?_⟩ <;> exact fun h => Value.noConfusion h

/-- C3 (amended): `and`/`or` short-circuit — the right operand is evaluated
only when the left operand does not decide the result (a would-be-throwing
right operand is never reached) — but when the left operand decides, the
result is the forced boolean (`false` for a falsy-left `and`, `true` for a
truthy-left `or`); only the non-deciding case yields the right operand's
actual value.  The left operand is always evaluated. -/
theorem c3_amended :
    evaluateExpression "0 and missingFn()" [] true = .ok (vBool false) ∧
    evaluateExpression "1 or missingFn()" [] true = .ok (vBool true) ∧
    evaluateExpression "1 and 2" [] true = .ok (vNum (jint 2)) ∧
    evaluateExpression "0 or 2" [] true = .ok (vNum (jint 2)) ∧
    evaluateExpression "missingFn() and 1" [] true =
      .error "unknown function: missingFn" := by
  exact ⟨rfl, rfl, rfl, rfl, rfl⟩

/-- C4: compiling the cyclic formula map `{a: "formula.b + 1", b:
"formula.a + 1"}` fails immediately with the cycle error naming formula `a`
(at `topoSort` and through `compileQuery`), and the acyclic map `{a:
"formula.b + 1", b: "1"}` compiles with the deterministic order `[b, a]`
(lexicographic seed, depth-first emission). -/
theorem c4_formula_cycle_and_order :
    topoSort [("a", "formula.b + 1"), ("b", "formula.a + 1")] =
      .error "formula cycle detected at a" ∧
    (compileQuery specCycle none).map (fun c => c.formulaOrder) =
      .error "formula cycle detected at a" ∧
    topoSort [("a", "formula.b + 1"), ("b", "1")] = .ok ["b", "a"] ∧
    (compileQuery specAcyclic none).map (fun c => c.formulaOrder) = .ok ["b", "a"] := by
  exact ⟨rfl, rfl, rfl, rfl⟩

/-- C5 (counterexample): the claim's particular case says a document whose
formula references an unknown identifier under strict mode produces exactly
one diagnostic error and is absent from the rows.  On the code a row context
always carries a `note` map, so a bare unknown identifier never throws: the
document stays in the rows and no diagnostic is recorded. -/
theorem c5_counterexample :
    (runQuery specC5 docsC5).map (fun r =>
      (r.rows.map (fun row => row.file.path), r.diagnostics.errors)) =
      .ok (["a.md"], []) := by
  rfl

/-- C5 (amended): the document loop records exactly one diagnostic
`"row <path>: <message>"` per throwing document, excludes that document, and
processes every other document unaffected — it never aborts (stated in full
generality over the compiled query and document list via `rowPhase_spec`'s
filterMap characterization, restated here).  In particular a document whose
formula performs a member access on an absent value under strict mode
produces exactly one diagnostic and is absent from the rows, while the other
document is unaffected. -/
theorem c5_amended :
    (∀ (compiled : CompiledQuery) (view : ViewSpec) (fbp : List (String × Value))
      (docs : List IndexedDoc),
      rowPhase compiled view fbp docs =
        (docs.filterMap (passedRow compiled view fbp),
         docs.filterMap (rowDiag compiled view fbp))) ∧
    (runQuery specC5b docsC5b).map (fun r =>
      (r.rows.map (fun row => row.file.path), r.diagnostics.errors,
        r.stats.matchedRows)) =
      .ok (["good.md"], ["row bad.md: cannot access property x on nullish value"], 1) := by
  exact ⟨rowPhase_spec, rfl⟩

/-- C6: sorting the rows with scores `[3, 7, 7, 1]` and names `[D, B, C, A]`
by score descending then name ascending orders them `[B, C, D, A]`, and the
limit of 2 truncates to exactly `[B, C]`; in general the limit truncates to
the first N rows and keeps all rows when absent. -/
theorem c6_sort_limit :
    stableSort rows6 view6 true [] = .ok [rowB6, rowC6, rowD6, rowA6] ∧
    applyLimit [rowB6, rowC6, rowD6, rowA6] view6 = [rowB6, rowC6] ∧
    (∀ (rows : List QueryRow) (v : ViewSpec),
      applyLimit rows v = match v.limit with
        | some n => rows.take n
        | none => rows) := by
  refine ⟨rfl, rfl, ?_⟩
  intro rows v
  unfold applyLimit
  cases v.limit <;> rfl

/-- C7: the parser rejects both literal forms the claim (and the repo's own
parser tests, AST type and evaluator) expect: `[1, 2, title]` fails with an
unexpected-token error and an object literal fails with an
unexpected-character error, while the evaluator does handle a list-literal
AST node. -/
theorem c7_parser_rejects_literals :
    parseExpression "[1, 2, title]" =
      .error (synErr ("unexpected token " ++ jsonQuote "[") 0) ∧
    parseExpression "\x7b\"name\": title, count: 2\x7d" =
      .error (synErr ("unexpected character " ++ jsonQuote "\x7b") 0) ∧
    evaluateAst (.arrayLit [.literal (vNum (jint 1)) "1", .literal (vNum (jint 2)) "2"])
      [] true = .ok (vList [vNum (jint 1), vNum (jint 2)]) := by
  exact ⟨rfl, rfl, rfl⟩

/-- C8 (counterexample): the claim says the inferred column list is exactly
the document-name column plus the union of observed front-matter keys, with
the path column added when no other column was found.  On the code the
inferred list also appends a `formula.<name>` column per declared formula:
with one formula and an empty note the columns are
`["file.name", "formula.x"]`, not `["file.name", "file.path"]`. -/
theorem c8_counterexample :
    (runQuery specC8 [⟨[], mkFile "a.md"⟩]).map (fun r => r.columns) =
      .ok ["file.name", "formula.x"] ∧
    (["file.name", "formula.x"] : List String) ≠ ["file.name", "file.path"] := by
  exact ⟨rfl, by decide⟩

/-- C8 (amended): the projected columns are the view-level `order` list when
non-empty, else the view-level `properties` list, else the spec-level
default list, else inferred as the fixed leading `file.name`, the union of
observed front-matter keys across the post-limit rows in document-path
order, then a `formula.<name>` column per declared formula in lexicographic
order, with `file.path` added only when neither front-matter nor formula
columns were found. -/
theorem c8_amended :
    (runQuery specC8b docsC8b).map (fun r => r.columns) =
      .ok ["file.name", "title", "score", "extra", "formula.y"] ∧
    (runQuery specC8c [⟨[], mkFile "a.md"⟩]).map (fun r => r.columns) =
      .ok ["file.name", "file.path"] ∧
    (runQuery specC8d [⟨[], mkFile "a.md"⟩]).map (fun r => r.columns) =
      .ok ["title", "status"] ∧
    (runQuery specC8e [⟨[], mkFile "a.md"⟩]).map (fun r => r.columns) =
      .ok ["p1"] := by
  exact ⟨rfl, rfl, rfl, rfl⟩

/-- C9: whenever both operands of `==` resolve to a normalized path (each
being a hyperlink, file record or plain string), they compare equal exactly
when the normalized paths — case-preserved, with a trailing `.md` removed —
are equal. -/
theorem c9_path_equality (strict : Bool) (l r : Value) (lp rp : String)
    (hl : resolveComparablePath l = some lp)
    (hr : resolveComparablePath r = some rp) :
    equalsValues strict l r = .ok (decide (lp = rp)) := by
  unfold equalsValues
  cases l <;> cases r <;>
    first
    | exact Option.noConfusion (show (none : Option String) = some lp from hl)
    | exact Option.noConfusion (show (none : Option String) = some rp from hr)
    | (simp only [equalsValuesGo]
       rw [hl, hr])

/-- C9 (witness): a hyperlink to `Notes/Alpha` equals the plain string
`Notes/Alpha.md` under `==`. -/
theorem c9_path_equality_witness :
    equalsValues true (vLink "Notes/Alpha" none) (vStr "Notes/Alpha.md") = .ok true := by
  have h := c9_path_equality true (vLink "Notes/Alpha" none) (vStr "Notes/Alpha.md")
    "Notes/Alpha" "Notes/Alpha" rfl rfl
  simpa using h

/-- C10 (counterexample): the claim says 2024-01-31 plus `"1M"` yields the
corresponding day in the following month.  February 2024 has 29 days, so the
calendar-field increment overflows: the code yields 2024-03-02, a day in
March, not a day in the following month (February). -/
theorem c10_counterexample :
    addValues true (vDate (utcMs 2024 1 31 0)) (vStr "1M") =
      .ok (vDate (utcMs 2024 3 2 0)) ∧
    dateMonth (utcMs 2024 3 2 0) = 3 ∧
    dateDayOfMonth (utcMs 2024 3 2 0) = 2 ∧
    (3 : Int) ≠ 2 := by
  exact ⟨rfl, by decide, by decide, by decide⟩

/-- C10 (amended): year and month duration parts apply by direct
calendar-field arithmetic — day-of-month overflow rolling into the
subsequent month exactly as JS `setMonth`/`setFullYear` normalise — and all
smaller units by flat millisecond addition.  2024-01-31 + "1M" = 2024-03-02
(not the flat 30-day shift, which lands on 2024-03-01); 2024-01-15 + "1M" =
2024-02-15; 2024-01-31 + "1d" = 2024-02-01; 2024-02-29 + "1y" = 2025-03-01. -/
theorem c10_amended :
    addValues true (vDate (utcMs 2024 1 31 0)) (vStr "1M") =
      .ok (vDate (utcMs 2024 3 2 0)) ∧
    addValues true (vDate (utcMs 2024 1 15 0)) (vStr "1M") =
      .ok (vDate (utcMs 2024 2 15 0)) ∧
    addValues true (vDate (utcMs 2024 1 31 0)) (vStr "1d") =
      .ok (vDate (utcMs 2024 2 1 0)) ∧
    addValues true (vDate (utcMs 2024 2 29 0)) (vStr "1y") =
      .ok (vDate (utcMs 2025 3 1 0)) ∧
    utcMs 2024 1 31 0 + 30 * msPerDay = utcMs 2024 3 1 0 ∧
    utcMs 2024 3 1 0 ≠ utcMs 2024 3 2 0 := by
  exact ⟨rfl, rfl, rfl, rfl, by decide, by decide⟩

end MdBase
